import Mathlib

/-!
# Teen Numbers Challenge (`game.js`): question generation, scoring and round state machine

A shallow embedding of the game core of `game.js`.

* The global `gameState` object becomes the record `GameState`, passed explicitly.
  The few browser facts the control flow depends on (whether the Next button is disabled,
  which screen is active, the results panel, how many interval timers are alive) are kept
  as extra fields of the same record.
* `Math.random()` is an explicit stream `Rng`: its k-th future value is `(g k mod 2^53) / 2^53`,
  a number in `[0, 1)`; products and floors on it are taken exactly.
* A JavaScript `undefined` array element or a property read on `undefined` (a `TypeError`)
  is an `Option`: `none` stands for the failure.  The totality theorems below show that the
  generators never take those branches.
* Numbers: the counters are natural numbers, `timeRemaining` and `score` integers.  The score
  arithmetic of `handleAnswer` is carried out in IEEE-754 double precision as JavaScript does
  (53-bit significand, round to nearest, ties to even); overflow to `Infinity` and subnormal
  numbers are out of reach of the quantities involved and are not modelled.
* Audio, animation and DOM painting have no effect on the fields modelled and are left out.
-/

namespace TeenGame

/-! ## Game data and configuration -/

/-- One value of the `TEEN_NUMBERS` object. -/
structure TeenEntry where
  word : String
  special : Bool
  tip : String
  deriving DecidableEq, Repr

/-- The `TEEN_NUMBERS` table, keys in the order `Object.keys` lists them (ascending integers). -/
def TEEN_NUMBERS : List (Nat × TeenEntry) :=
  [ (11, ⟨"eleven", true, "Eleven is a special number — it doesn\x27t follow the \"teen\" pattern!"⟩),
    (12, ⟨"twelve", true, "Twelve is unique — remember it separately, not \"twoteen\"!"⟩),
    (13, ⟨"thirteen", true, "Thirteen: \"three\" changes to \"thir\" + teen"⟩),
    (14, ⟨"fourteen", false, "Fourteen = four + teen. Easy!"⟩),
    (15, ⟨"fifteen", true, "Fifteen: \"five\" becomes \"fif\" — the V disappears!"⟩),
    (16, ⟨"sixteen", false, "Sixteen = six + teen. Simple pattern!"⟩),
    (17, ⟨"seventeen", false, "Seventeen = seven + teen. You\x27ve got it!"⟩),
    (18, ⟨"eighteen", true, "Eighteen: only one T! \"Eight\" + \"een\" (not \"eightteen\")"⟩),
    (19, ⟨"nineteen", false, "Nineteen = nine + teen. Almost twenty!"⟩) ]

/-- The `MISSPELLINGS` table, keyed by the canonical word. -/
def MISSPELLINGS : List (String × List String) :=
  [ ("eleven", ["elevan", "elaven", "elleven"]),
    ("twelve", ["twelv", "twelf", "twleve"]),
    ("thirteen", ["therteen", "tirteen", "thirten"]),
    ("fourteen", ["forteen", "fourten", "fortin"]),
    ("fifteen", ["fiveteen", "fiften", "fivteen"]),
    ("sixteen", ["sixten", "sixtean", "sicksteen"]),
    ("seventeen", ["seventean", "seventen", "sevinteen"]),
    ("eighteen", ["eightteen", "eighten", "eiteen"]),
    ("nineteen", ["ninteen", "ninetean", "nineten"]) ]

/-- The `GENERAL_TIPS` rotation pool. -/
def GENERAL_TIPS : List String :=
  [ "Remember: thirteen, fourteen, fifteen... all end in TEEN!",
    "The teen numbers go from 11 to 19.",
    "Practice makes perfect! Keep learning!",
    "Eleven and twelve are the special ones — memorize them!",
    "Most teen numbers = base number + \"teen\"",
    "Watch the spelling of thirteen, fifteen, and eighteen!",
    "You\x27re becoming a teen numbers expert!" ]

/-- The `ADDITION_PROBLEMS` table: operand pairs per teen number. -/
def ADDITION_PROBLEMS : List (Nat × List (Nat × Nat)) :=
  [ (11, [(10, 1), (9, 2), (8, 3), (7, 4), (6, 5)]),
    (12, [(10, 2), (9, 3), (8, 4), (7, 5), (6, 6)]),
    (13, [(10, 3), (9, 4), (8, 5), (7, 6)]),
    (14, [(10, 4), (9, 5), (8, 6), (7, 7)]),
    (15, [(10, 5), (9, 6), (8, 7)]),
    (16, [(10, 6), (9, 7), (8, 8)]),
    (17, [(10, 7), (9, 8)]),
    (18, [(10, 8), (9, 9)]),
    (19, [(10, 9)]) ]

/-- The `COUNT_OBJECTS` palette. -/
def COUNT_OBJECTS : List String :=
  ["⭐", "🌟", "💎", "🔵", "🟢", "🟡", "🔴", "💜", "🧡", "🩵"]

/-- The shape of the `CONFIG` object. -/
structure Config where
  totalQuestions : Nat
  timePerQuestion : Nat
  pointsCorrect : Nat
  maxTimeBonus : Nat
  streakBonus : Nat
  minUniqueBeforeRepeat : Nat
  deriving DecidableEq, Repr

/-- The `CONFIG` constants. -/
def CONFIG : Config :=
  { totalQuestions := 20, timePerQuestion := 15, pointsCorrect := 10,
    maxTimeBonus := 30, streakBonus := 5, minUniqueBeforeRepeat := 6 }

/-- Property read `TEEN_NUMBERS[n]`; `none` is `undefined`. -/
def teenEntry (n : Nat) : Option TeenEntry :=
  TEEN_NUMBERS.lookup n

/-- The expression `TEEN_NUMBERS[n].word`; `none` is the `TypeError` on an unknown key. -/
def teenWord (n : Nat) : Option String :=
  (teenEntry n).map fun e => e.word

/-! ## Game state -/

/-- Which of the three screens carries the `active` class (`showScreen`). -/
inductive Screen where
  | intro
  | game
  | results
  deriving DecidableEq, Repr

/-- What `endGame` writes into the results panel. -/
structure Results where
  finalScore : Int
  finalCorrect : Nat
  finalIncorrect : Nat
  finalAccuracy : Nat
  motivationalMessage : String
  deriving DecidableEq, Repr

/-- The `gameState` object, followed by the browser-side facts the code reads or writes:
`nextBtnDisabled` is `elements.nextBtn.disabled`, `screen` the active screen, `results` the
results panel, `liveTimers` the number of interval timers that have been set and not cleared.
`timerInterval` records whether the stored handle is non-null. -/
structure GameState where
  currentQuestion : Nat
  score : Int
  streak : Nat
  correctAnswers : Nat
  incorrectAnswers : Nat
  timeRemaining : Int
  timerInterval : Bool
  usedNumbers : List Nat
  usedTips : List String
  currentAnswer : Option Nat
  answered : Bool
  nextBtnDisabled : Bool
  screen : Screen
  results : Option Results
  liveTimers : Nat
  deriving DecidableEq, Repr

/-! ## Randomness -/

/-- Stream of the future values of `Math.random()`, as numerators over `2^53`. -/
abbrev Rng := Nat → Nat

/-- Denominator of the random values. -/
def randomResolution : Nat := 9007199254740992

/-- One call of `Math.random()`: the numerator drawn and the rest of the stream. -/
def mathRandom (g : Rng) : Nat × Rng :=
  (g 0 % randomResolution, fun k => g (k + 1))

/-- The expression `Math.floor(Math.random() * n)`. -/
def randomIndex (n : Nat) (g : Rng) : Nat × Rng :=
  let (u, g1) := mathRandom g
  (u * n / randomResolution, g1)

/-! ## Utility functions -/

/-- The destructuring swap `[a[i], a[j]] = [a[j], a[i]]`; both indices are in range
wherever `shuffleArray` uses it. -/
def swapEntries {α : Type} (xs : List α) (i j : Nat) : List α :=
  match xs[i]?, xs[j]? with
  | some a, some b => (xs.set i b).set j a
  | _, _ => xs

/-- The loop of `shuffleArray`, entered with `i = k`, running down to `i = 1`. -/
def shuffleLoop {α : Type} : Nat → List α → Rng → List α × Rng
  | 0, xs, g => (xs, g)
  | i + 1, xs, g =>
    let (j, g1) := randomIndex (i + 2) g
    shuffleLoop i (swapEntries xs (i + 1) j) g1

/-- Fisher-Yates shuffle of a copy of the array. -/
def shuffleArray {α : Type} (array : List α) (g : Rng) : List α × Rng :=
  shuffleLoop (array.length - 1) array g

/-- A random element of the array (`undefined`, here `none`, on an empty one). -/
def getRandomElement {α : Type} (array : List α) (g : Rng) : Option α × Rng :=
  let (i, g1) := randomIndex array.length g
  (array[i]?, g1)

/-- All teen number values: `Object.keys(TEEN_NUMBERS).map(Number)`. -/
def getAllTeenNumbers : List Nat :=
  TEEN_NUMBERS.map fun p => p.1

/-- The bookkeeping `push(x)` followed by `shift()` when the length exceeds `cap`. -/
def pushBounded {α : Type} (xs : List α) (x : α) (cap : Nat) : List α :=
  let pushed := xs ++ [x]
  if pushed.length > cap then pushed.drop 1 else pushed

/-- Pick a teen number that has not been used recently and record it. -/
def getNextNumber (s : GameState) (g : Rng) : Option (Nat × GameState × Rng) :=
  let allNumbers := getAllTeenNumbers
  let available := allNumbers.filter fun n => !s.usedNumbers.contains n
  let pick : (Option Nat × Rng) × List Nat :=
    if available.length > 0 then (getRandomElement available g, s.usedNumbers)
    else (getRandomElement allNumbers g, [])
  match pick with
  | ((some selected, g1), used) =>
    some (selected,
      { s with usedNumbers := pushBounded used selected CONFIG.minUniqueBeforeRepeat }, g1)
  | ((none, _), _) => none

/-- Apply a lookup that may throw to every element, failing at the first failure
(`array.map(n => TEEN_NUMBERS[n].word)`). -/
def mapThrowing {α β : Type} (f : α → Option β) : List α → Option (List β)
  | [] => some []
  | a :: as =>
    match f a with
    | none => none
    | some b => (mapThrowing f as).map fun bs => b :: bs

/-- Wrong answer options: the words of `count` other teen numbers. -/
def getWrongOptions (correctNumber : Nat) (count : Nat) (g : Rng) :
    Option (List String) × Rng :=
  let allNumbers := getAllTeenNumbers.filter fun n => n != correctNumber
  let (shuffled, g1) := shuffleArray allNumbers g
  (mapThrowing teenWord (shuffled.take count), g1)

/-- A learning tip for a number; `none` is the `TypeError` of `TEEN_NUMBERS[num].tip`
when `num` is not a key. -/
def getTip (s : GameState) (num : Option Nat) (g : Rng) :
    Option (String × GameState × Rng) :=
  match num.bind teenEntry with
  | none => none
  | some entry =>
    let numberTip := entry.tip
    let generalTips := GENERAL_TIPS.filter fun t => !s.usedTips.contains t
    let (u, g1) := mathRandom g
    if u * 10 < 7 * randomResolution || generalTips.length == 0 then
      some (numberTip, s, g1)
    else
      match getRandomElement generalTips g1 with
      | (some tip, g2) => some (tip, { s with usedTips := pushBounded s.usedTips tip 4 }, g2)
      | (none, _) => none

/-! ## Question generators -/

/-- The prompt of a question; `Display.html` renders it to the markup the generator builds. -/
inductive Display where
  | number (num : Nat)
  | objects (object : String) (num : Nat)
  | math (a b : Nat)
  deriving DecidableEq, Repr

/-- The markup string a generator stores in `display`. -/
def Display.html : Display → String
  | .number num => "<div class=\"number-display\">" ++ toString num ++ "</div>"
  | .objects object num =>
    "<div class=\"objects-display\">" ++
      String.join (List.replicate num ("<span class=\"object-item\">" ++ object ++ "</span>")) ++
      "</div>"
  | .math a b =>
    "\n            <div class=\"math-display\">" ++
    "\n                <span>" ++ toString a ++ "</span>" ++
    "\n                <span class=\"operator\">+</span>" ++
    "\n                <span>" ++ toString b ++ "</span>" ++
    "\n                <span class=\"equals\">=</span>" ++
    "\n                <span class=\"result\">?</span>" ++
    "\n            </div>\n        "

/-- The question object the generators return (`type` is spelled `kind`). -/
structure Question where
  kind : String
  instruction : String
  display : Display
  options : List String
  correctAnswer : String
  number : Nat
  deriving DecidableEq, Repr

/-- The common tail of the three word-option generators: wrong options, then the shuffle of
`[correctWord, ...wrongOptions]`. -/
def wordOptions (num : Nat) (correctWord : String) (g : Rng) : Option (List String × Rng) :=
  match getWrongOptions num 3 g with
  | (some wrongOptions, g1) => some (shuffleArray (correctWord :: wrongOptions) g1)
  | (none, _) => none

/-- Generate a number recognition question. -/
def generateNumberRecognition (s : GameState) (g : Rng) : Option (Question × GameState × Rng) := do
  let (num, s1, g1) ← getNextNumber s g
  let correctWord ← teenWord num
  let (options, g2) ← wordOptions num correctWord g1
  some ({ kind := "Number Recognition", instruction := "What number is this?",
          display := .number num, options := options, correctAnswer := correctWord,
          number := num }, s1, g2)

/-- Generate a counting objects question. -/
def generateCountingObjects (s : GameState) (g : Rng) : Option (Question × GameState × Rng) := do
  let (num, s1, g1) ← getNextNumber s g
  let correctWord ← teenWord num
  let (options, g2) ← wordOptions num correctWord g1
  let (object?, g3) := getRandomElement COUNT_OBJECTS g2
  let object ← object?
  some ({ kind := "Count & Identify", instruction := "How many objects are there?",
          display := .objects object num, options := options, correctAnswer := correctWord,
          number := num }, s1, g3)

/-- Generate a simple addition question. -/
def generateAddition (s : GameState) (g : Rng) : Option (Question × GameState × Rng) := do
  let (num, s1, g1) ← getNextNumber s g
  let problems ← ADDITION_PROBLEMS.lookup num
  let (pair?, g2) := getRandomElement problems g1
  let (a, b) ← pair?
  let correctWord ← teenWord num
  let (options, g3) ← wordOptions num correctWord g2
  some ({ kind := "Simple Addition", instruction := "What is the answer?",
          display := .math a b, options := options, correctAnswer := correctWord,
          number := num }, s1, g3)

/-- Generate a spelling check question. -/
def generateSpellingCheck (s : GameState) (g : Rng) : Option (Question × GameState × Rng) := do
  let (num, s1, g1) ← getNextNumber s g
  let correctWord ← teenWord num
  let known ← MISSPELLINGS.lookup correctWord
  let (shuffled, g2) := shuffleArray known g1
  let misspellings := shuffled.take 3
  let (options, g3) := shuffleArray (correctWord :: misspellings) g2
  some ({ kind := "Spelling Check", instruction := "Which one is spelled correctly?",
          display := .number num, options := options, correctAnswer := correctWord,
          number := num }, s1, g3)

/-- The array `generators` of `getRandomQuestionType`. -/
def generators : List (GameState → Rng → Option (Question × GameState × Rng)) :=
  [generateNumberRecognition, generateCountingObjects, generateAddition, generateSpellingCheck]

/-- A random question generator. -/
def getRandomQuestionType (g : Rng) :
    Option (GameState → Rng → Option (Question × GameState × Rng)) × Rng :=
  getRandomElement generators g

/-! ## Timer and UI switches -/

/-- The call `startTimer()`: reset the countdown and arm a new interval timer. -/
def startTimer (s : GameState) : GameState :=
  { s with timeRemaining := CONFIG.timePerQuestion, timerInterval := true,
           liveTimers := s.liveTimers + 1 }

/-- The call `stopTimer()`: clear the stored interval, if any. -/
def stopTimer (s : GameState) : GameState :=
  if s.timerInterval then { s with timerInterval := false, liveTimers := s.liveTimers - 1 }
  else s

/-- The call `enableNextButton()`. -/
def enableNextButton (s : GameState) : GameState :=
  { s with nextBtnDisabled := false }

/-- The call `disableNextButton()`. -/
def disableNextButton (s : GameState) : GameState :=
  { s with nextBtnDisabled := true }

/-- The call `showScreen(target)`. -/
def showScreen (s : GameState) (target : Screen) : GameState :=
  { s with screen := target }

/-- The state effect of `showTip(num)`; `none` when `getTip` throws. -/
def showTip (s : GameState) (num : Option Nat) (g : Rng) : Option (GameState × Rng) :=
  (getTip s num g).map fun r => r.2

/-- Result of an event handler: the `gameState` it leaves, the rest of the random stream and
whether it ended with an uncaught `TypeError` (state changes made before the throw stay). -/
structure Outcome where
  state : GameState
  rng : Rng
  threw : Bool

/-- The part of both handlers after the counters are updated: `showTip(currentAnswer)` and,
when it returns, `enableNextButton()`. -/
def finishAnswer (s : GameState) (g : Rng) : Outcome :=
  match showTip s s.currentAnswer g with
  | some (s1, g1) => ⟨enableNextButton s1, g1, false⟩
  | none => ⟨s, g, true⟩

/-- Handle timer timeout. -/
def handleTimeout (s : GameState) (g : Rng) : Outcome :=
  if s.answered then ⟨s, g, false⟩
  else
    let s1 := { stopTimer s with answered := true }
    let s2 := { s1 with incorrectAnswers := s1.incorrectAnswers + 1, streak := 0 }
    finishAnswer s2 g

/-! ### Double-precision arithmetic -/

/-- The quotient `num / den` rounded to the nearest integer, ties to the even one. -/
def divRoundEven (num den : Nat) : Nat :=
  let d := num / den
  let r := num % den
  if 2 * r < den then d else if den < 2 * r then d + 1 else if d % 2 = 0 then d else d + 1

/-- A positive double, as significand and binary exponent: its value is `mant * 2 ^ exp`. -/
structure PosDouble where
  mant : Nat
  exp : Int
  deriving DecidableEq, Repr

/-- Helper of `floorLog2`, with fuel. -/
def floorLog2Aux : Nat → Nat → Nat
  | 0, _ => 0
  | fuel + 1, n => if n < 2 then 0 else floorLog2Aux fuel (n / 2) + 1

/-- The position of the leading bit: `floor (log2 n)` for `n > 0`. -/
def floorLog2 (n : Nat) : Nat :=
  floorLog2Aux n n

/-- Numerator and denominator of `num / (den * 2 ^ e)`. -/
def scaledQuot (num den : Nat) (e : Int) : Nat × Nat :=
  if 0 ≤ e then (num, den * 2 ^ e.toNat) else (num * 2 ^ (-e).toNat, den)

/-- The double nearest to `num / den` (both positive): the exponent is chosen so that the
quotient has 53 significant bits before rounding, then rounded to nearest, ties to even. -/
def roundRatio (num den : Nat) : PosDouble :=
  let e0 : Int := (floorLog2 num : Int) - (floorLog2 den : Int) - 53
  let q0 := (scaledQuot num den e0).1 / (scaledQuot num den e0).2
  let e : Int := if q0 < 2 ^ 53 then e0 else e0 + 1
  ⟨divRoundEven (scaledQuot num den e).1 (scaledQuot num den e).2, e⟩

/-- The largest integer not above a positive double. -/
def PosDouble.floor (x : PosDouble) : Nat :=
  if 0 ≤ x.exp then x.mant * 2 ^ x.exp.toNat else x.mant / 2 ^ (-x.exp).toNat

/-- The smallest integer not below a positive double. -/
def PosDouble.ceil (x : PosDouble) : Nat :=
  if 0 ≤ x.exp then x.mant * 2 ^ x.exp.toNat
  else (x.mant + 2 ^ (-x.exp).toNat - 1) / 2 ^ (-x.exp).toNat

/-- The double product of a positive double and a positive integer. -/
def PosDouble.mul (x : PosDouble) (n : Nat) : PosDouble :=
  let p := roundRatio (x.mant * n) 1
  ⟨p.mant, p.exp + x.exp⟩

/-- The expression `Math.floor((t / d) * m)` on doubles, for an integer `t` and positive
integers `d` and `m`: a rounded division, a rounded product, then the floor. -/
def mathFloorDivMul (t : Int) (d m : Nat) : Int :=
  if t = 0 then 0
  else if 0 < t then (((roundRatio t.natAbs d).mul m).floor : Int)
  else -(((roundRatio t.natAbs d).mul m).ceil : Int)

/-- The double nearest to an integer: the result of a double sum or product whose exact
value is that integer.  Every integer up to `2 ^ 53` in absolute value is a double. -/
def doubleInt (x : Int) : Int :=
  if x.natAbs ≤ 2 ^ 53 then x
  else if 0 < x then ((roundRatio x.natAbs 1).floor : Int)
  else -((roundRatio x.natAbs 1).floor : Int)

/-- The points of a correct answer, `pointsCorrect + timeBonus + streakBonus`, where
`timeBonus = Math.floor((timeRemaining / timePerQuestion) * maxTimeBonus)` and
`streakBonus = streak * CONFIG.streakBonus`, each operation in double precision. -/
def totalPoints (timeRemaining : Int) (streak : Nat) : Int :=
  let timeBonus : Int :=
    mathFloorDivMul timeRemaining CONFIG.timePerQuestion CONFIG.maxTimeBonus
  let streakBonus : Int := doubleInt ((streak : Int) * (CONFIG.streakBonus : Int))
  doubleInt (doubleInt ((CONFIG.pointsCorrect : Int) + timeBonus) + streakBonus)

/-- Handle the selection of an answer; `correct` is the `question.correctAnswer` captured by
the option button. -/
def handleAnswer (s : GameState) (selected correct : String) (g : Rng) : Outcome :=
  if s.answered then ⟨s, g, false⟩
  else
    let s1 := { stopTimer s with answered := true }
    let isCorrect := decide (selected = correct)
    if isCorrect then
      let s2 := { s1 with score := doubleInt (s1.score + totalPoints s1.timeRemaining s1.streak),
                          streak := s1.streak + 1,
                          correctAnswers := s1.correctAnswers + 1 }
      finishAnswer s2 g
    else
      let s2 := { s1 with streak := 0, incorrectAnswers := s1.incorrectAnswers + 1 }
      finishAnswer s2 g

/-- The body of the interval callback armed by `startTimer`. -/
def timerTick (s : GameState) (g : Rng) : Outcome :=
  let s1 := { s with timeRemaining := s.timeRemaining - 1 }
  if s1.timeRemaining ≤ 0 then handleTimeout s1 g else ⟨s1, g, false⟩

/-! ## Question handling and game flow -/

/-- Display a new question. -/
def displayQuestion (s : GameState) (g : Rng) : Option (GameState × Rng) := do
  let (generator?, g1) := getRandomQuestionType g
  let generator ← generator?
  let (question, s1, g2) ← generator s g1
  let s2 := { s1 with currentAnswer := some question.number, answered := false }
  some (startTimer (disableNextButton s2), g2)

/-- The expression `Math.round((correctAnswers / totalQuestions) * 100)`, computed exactly
as `floor(x + 1/2)`. -/
def accuracyPercent (correctAnswers : Nat) : Nat :=
  (2 * (correctAnswers * 100) + CONFIG.totalQuestions) / (2 * CONFIG.totalQuestions)

/-- The motivational message chosen by `endGame`. -/
def motivationalMessage (accuracy : Nat) : String :=
  if accuracy ≥ 90 then "🌟 Amazing! You\x27re a teen numbers master!"
  else if accuracy ≥ 70 then "👏 Great job! Keep practicing to become a pro!"
  else if accuracy ≥ 50 then "💪 Good effort! Practice makes perfect!"
  else "🎯 Keep learning! You\x27ll get better every time!"

/-- End the game and show results (the confetti animation is not modelled). -/
def endGame (s : GameState) : GameState :=
  let s1 := stopTimer s
  let accuracy := accuracyPercent s1.correctAnswers
  let summary : Results :=
    { finalScore := s1.score, finalCorrect := s1.correctAnswers,
      finalIncorrect := s1.incorrectAnswers, finalAccuracy := accuracy,
      motivationalMessage := motivationalMessage accuracy }
  showScreen { s1 with results := some summary } .results

/-- Move to next question or end game. -/
def nextQuestion (s : GameState) (g : Rng) : Option (GameState × Rng) :=
  let s1 := { s with currentQuestion := s.currentQuestion + 1 }
  if s1.currentQuestion > CONFIG.totalQuestions then some (endGame s1, g)
  else displayQuestion s1 g

/-- A click on the Next button, whose listener is `nextQuestion`: a disabled button
dispatches no click event. -/
def clickNext (s : GameState) (g : Rng) : Option (GameState × Rng) :=
  if s.nextBtnDisabled then some (s, g) else nextQuestion s g

/-- Start a new game. -/
def startGame (s : GameState) (g : Rng) : Option (GameState × Rng) :=
  let s1 := { s with currentQuestion := 1, score := 0, streak := 0, correctAnswers := 0,
                     incorrectAnswers := 0, usedNumbers := [], usedTips := [],
                     answered := false }
  displayQuestion (showScreen s1 .game) g

/-! ## Auxiliary definitions for the statements -/

/-- The word of a teen number, with the empty string outside the table. -/
def wordOrEmpty (n : Nat) : String :=
  (teenWord n).getD ""

/-- The shape every generated question must have: four pairwise distinct options, exactly one
of them equal to `correctAnswer`, and `correctAnswer` the canonical word of `number`, a value
in 11..19. -/
def WellFormedQuestion (q : Question) : Prop :=
  q.options.length = 4 ∧ q.options.Nodup ∧ q.options.count q.correctAnswer = 1 ∧
    (11 ≤ q.number ∧ q.number ≤ 19) ∧ teenWord q.number = some q.correctAnswer

instance (q : Question) : Decidable (WellFormedQuestion q) := by
  unfold WellFormedQuestion
  infer_instance

/-- A state awaiting an answer to its first question, used to instantiate statements. -/
def sampleState : GameState :=
  { currentQuestion := 1, score := 0, streak := 0, correctAnswers := 0, incorrectAnswers := 0,
    timeRemaining := 15, timerInterval := true, usedNumbers := [11], usedTips := [],
    currentAnswer := some 11, answered := false, nextBtnDisabled := true, screen := .game,
    results := none, liveTimers := 1 }

/-- The all-zero random stream, used to instantiate statements. -/
def zeroRng : Rng := fun _ => 0

/-- A scoring event on the current question: a click on an option button, which calls
`handleAnswer(selected, button, correct)`, or the expiry of the countdown. -/
inductive AnswerEvent where
  | answer (selected correct : String)
  | timeout
  deriving DecidableEq, Repr

/-- Fire one scoring event. -/
def fireEvent (s : GameState) (g : Rng) : AnswerEvent → Outcome
  | .answer selected correct => handleAnswer s selected correct g
  | .timeout => handleTimeout s g

/-- Fire a sequence of scoring events on the same question, with no `displayQuestion`
in between. -/
def fireEvents : List AnswerEvent → GameState → Rng → GameState × Rng
  | [], s, g => (s, g)
  | e :: es, s, g => fireEvents es (fireEvent s g e).state (fireEvent s g e).rng

/-- Successive calls of `getNextNumber`, one per random stream of the list (the streams are
independent because other code draws from `Math.random()` between two calls), collecting the
numbers returned. -/
def getNextNumbers : List Rng → GameState → Option (List Nat × GameState)
  | [], s => some ([], s)
  | g :: gs, s =>
    match getNextNumber s g with
    | some (n, s1, _) =>
      match getNextNumbers gs s1 with
      | some (ns, s2) => some (n :: ns, s2)
      | none => none
    | none => none

/-- The `gameState` literal the script installs at load time, with the intro screen active
(`DOMContentLoaded`).  The initial `disabled` attribute of the Next button comes from the page
markup and is taken as set; `displayQuestion` overwrites it before it is ever read. -/
def initialState : GameState :=
  { currentQuestion := 0, score := 0, streak := 0, correctAnswers := 0, incorrectAnswers := 0,
    timeRemaining := CONFIG.timePerQuestion, timerInterval := false, usedNumbers := [],
    usedTips := [], currentAnswer := none, answered := false, nextBtnDisabled := true,
    screen := .intro, results := none, liveTimers := 0 }

/-- States reachable from `startGame` through `handleAnswer`, `handleTimeout` and
`nextQuestion`, each callable at any time with any arguments. -/
inductive Reachable : GameState → Prop
  | start (s0 : GameState) (g : Rng) (s : GameState) (g' : Rng) :
      startGame s0 g = some (s, g') → Reachable s
  | answer (s : GameState) (selected correct : String) (g : Rng) :
      Reachable s → Reachable (handleAnswer s selected correct g).state
  | timeout (s : GameState) (g : Rng) :
      Reachable s → Reachable (handleTimeout s g).state
  | next (s : GameState) (g : Rng) (s' : GameState) (g' : Rng) :
      Reachable s → nextQuestion s g = some (s', g') → Reachable s'

/-- States reachable from `startGame` through the events the page can deliver: option clicks
(`handleAnswer`), `handleTimeout`, ticks of a live interval timer, and clicks on the Next
button, which reach `nextQuestion` only while the button is enabled. -/
inductive ReachableUI : GameState → Prop
  | start (s0 : GameState) (g : Rng) (s : GameState) (g' : Rng) :
      startGame s0 g = some (s, g') → ReachableUI s
  | answer (s : GameState) (selected correct : String) (g : Rng) :
      ReachableUI s → ReachableUI (handleAnswer s selected correct g).state
  | timeout (s : GameState) (g : Rng) :
      ReachableUI s → ReachableUI (handleTimeout s g).state
  | tick (s : GameState) (g : Rng) :
      ReachableUI s → 0 < s.liveTimers → ReachableUI (timerTick s g).state
  | next (s : GameState) (g : Rng) (s' : GameState) (g' : Rng) :
      ReachableUI s → clickNext s g = some (s', g') → ReachableUI s'

/-- The invariant of the round state machine behind the counter identity: while the game
screen is up the counters account for every question before the current one, plus the current
one once it is answered; and the Next button is enabled only after an answer. -/
def RoundInv (s : GameState) : Prop :=
  (s.screen = .game →
    s.correctAnswers + s.incorrectAnswers + 1 =
        s.currentQuestion + (if s.answered then 1 else 0) ∧
      1 ≤ s.currentQuestion ∧ s.currentQuestion ≤ CONFIG.totalQuestions) ∧
  (s.nextBtnDisabled = false → s.answered = true)

/-- A run in which every question is answered correctly at once (`selected = correct`, the
k-th with the k-th word of the list) and followed by `nextQuestion`. -/
def answerAllCorrectly : List String → GameState → Rng → Option (GameState × Rng)
  | [], s, g => some (s, g)
  | w :: ws, s, g =>
    match nextQuestion (handleAnswer s w w g).state (handleAnswer s w w g).rng with
    | some (s1, g1) => answerAllCorrectly ws s1 g1
    | none => none

/-- The score after `k` correct answers in a row, each with the full time bonus. -/
def perfectScore : Nat → Int
  | 0 => 0
  | k + 1 => perfectScore k + (10 + 30 + 5 * (k : Int))

/-- The state of a perfect run when question `k + 1` has just been displayed: `k` correct
answers so far, each with the full time bonus, and the countdown at 15. -/
def AwaitingAfter (k : Nat) (s : GameState) : Prop :=
  s.answered = false ∧ s.timeRemaining = 15 ∧ s.streak = k ∧ s.score = perfectScore k ∧
    s.correctAnswers = k ∧ s.incorrectAnswers = 0 ∧ s.currentQuestion = k + 1 ∧
    s.screen = .game

/-- The end of a perfect run: results screen up, 20 correct answers, the summary filled in. -/
def PerfectFinal (s : GameState) : Prop :=
  s.screen = .results ∧ s.score = perfectScore 20 ∧ s.correctAnswers = 20 ∧
    s.incorrectAnswers = 0 ∧ s.currentQuestion = 21 ∧
    s.results = some
      { finalScore := perfectScore 20, finalCorrect := 20, finalIncorrect := 0,
        finalAccuracy := accuracyPercent 20,
        motivationalMessage := motivationalMessage (accuracyPercent 20) }

/-- One transition of the round state machine inside a session: a timer tick, an answer with
any selection, a timeout, or `nextQuestion`.  Each is allowed in any state, which covers every
state in which the page can deliver it. -/
inductive SessionStep : GameState → GameState → Prop
  | tick (s : GameState) (g : Rng) : SessionStep s (timerTick s g).state
  | answer (s : GameState) (selected correct : String) (g : Rng) :
      SessionStep s (handleAnswer s selected correct g).state
  | timeout (s : GameState) (g : Rng) : SessionStep s (handleTimeout s g).state
  | next (s : GameState) (g : Rng) (s' : GameState) (g' : Rng) :
      nextQuestion s g = some (s', g') → SessionStep s s'

/-- States of a session: what `startGame` produces from any prior state, followed by any
number of transitions. -/
inductive InSession : GameState → Prop
  | start (s0 : GameState) (g : Rng) (s : GameState) (g' : Rng) :
      startGame s0 g = some (s, g') → InSession s
  | step (s s' : GameState) : InSession s → SessionStep s s' → InSession s'

/-- The number of questions opened so far in the session: those answered or timed out, plus
the one still awaiting its answer. -/
def questionsOpened (s : GameState) : Nat :=
  s.correctAnswers + s.incorrectAnswers + (if s.answered then 0 else 1)

/-- The invariant of a session behind score monotonicity and repeat avoidance: the score is
not negative, an unanswered question has between 1 and 15 seconds left, at most
`minUniqueBeforeRepeat` numbers are tracked, at most 20 questions are ever opened (never more
than `currentQuestion`), the streak is at most the number of correct answers and each correct
answer has brought at most 135 points. -/
structure SessionInv (s : GameState) : Prop where
  score_nonneg : 0 ≤ s.score
  time_pos : s.answered = false → 1 ≤ s.timeRemaining
  time_le : s.answered = false → s.timeRemaining ≤ 15
  used_le : s.usedNumbers.length ≤ CONFIG.minUniqueBeforeRepeat
  streak_le : s.streak ≤ s.correctAnswers
  score_le : s.score ≤ 135 * (s.correctAnswers : Int)
  opened_le : questionsOpened s ≤ 20
  opened_le_question : questionsOpened s ≤ s.currentQuestion

/-- Successive calls of `getTip`, one per pair of a number and a random stream, collecting
the tips returned. -/
def getTips : List (Nat × Rng) → GameState → Option (List String × GameState)
  | [], s => some ([], s)
  | (num, g) :: rest, s =>
    match getTip s (some num) g with
    | some (tip, s1, _) =>
      match getTips rest s1 with
      | some (tips, s2) => some (tip :: tips, s2)
      | none => none
    | none => none

/-- Successive clicks on the Next button, one per random stream, with no answer or timeout
in between; the last state is returned. -/
def clickNextMany : List Rng → GameState → Option GameState
  | [], s => some s
  | g :: gs, s =>
    match clickNext s g with
    | some (s1, _) => clickNextMany gs s1
    | none => none

/-! ## Randomness and shuffling: basic facts -/

theorem randomResolution_pos : 0 < randomResolution := by decide

theorem mathRandom_lt (g : Rng) : (mathRandom g).1 < randomResolution :=
  Nat.mod_lt _ randomResolution_pos

theorem randomIndex_lt (n : Nat) (g : Rng) (hn : 0 < n) : (randomIndex n g).1 < n := by
  have hu := mathRandom_lt g
  show (mathRandom g).1 * n / randomResolution < n
  rw [Nat.div_lt_iff_lt_mul randomResolution_pos]
  rw [Nat.mul_comm n]
  exact Nat.mul_lt_mul_of_pos_right hu hn

theorem swapEntries_perm {α : Type} [DecidableEq α] (xs : List α) (i j : Nat) :
    (swapEntries xs i j).Perm xs := by
  unfold swapEntries
  cases hi : xs[i]? with
  | none => exact List.Perm.refl _
  | some a =>
    cases hj : xs[j]? with
    | none => exact List.Perm.refl _
    | some b =>
      obtain ⟨hi1, hi2⟩ := List.getElem?_eq_some.mp hi
      obtain ⟨hj1, hj2⟩ := List.getElem?_eq_some.mp hj
      show ((xs.set i b).set j a).Perm xs
      rw [List.perm_iff_count]
      intro c
      have hlen : j < (xs.set i b).length := by simpa using hj1
      have hget : (xs.set i b)[j] = b := by
        rw [List.getElem_set]
        split
        · rfl
        · exact hj2
      rw [List.count_set a c _ j hlen, hget, List.count_set b c xs i hi1, hi2]
      have h1 : (if (a == c) = true then 1 else 0) ≤ List.count c xs := by
        split
        · rename_i h
          have hac : a = c := by simpa using h
          have hmem : c ∈ xs := hac ▸ hi2 ▸ List.getElem_mem hi1
          exact List.count_pos_iff.mpr hmem
        · exact Nat.zero_le _
      omega

theorem shuffleLoop_perm {α : Type} [DecidableEq α] (k : Nat) (xs : List α) (g : Rng) :
    (shuffleLoop k xs g).1.Perm xs := by
  induction k generalizing xs g with
  | zero => exact List.Perm.refl _
  | succ i ih =>
    show (shuffleLoop i (swapEntries xs (i + 1) (randomIndex (i + 2) g).1)
      (randomIndex (i + 2) g).2).1.Perm xs
    exact (ih _ _).trans (swapEntries_perm _ _ _)

theorem shuffleArray_perm {α : Type} [DecidableEq α] (xs : List α) (g : Rng) :
    (shuffleArray xs g).1.Perm xs :=
  shuffleLoop_perm _ _ _

theorem getRandomElement_mem {α : Type} (xs : List α) (g : Rng) (h : xs ≠ []) :
    ∃ x, (getRandomElement xs g).1 = some x ∧ x ∈ xs := by
  have hpos : 0 < xs.length := List.length_pos.mpr h
  have hlt := randomIndex_lt xs.length g hpos
  refine ⟨xs[(randomIndex xs.length g).1], ?_, List.getElem_mem hlt⟩
  show xs[(randomIndex xs.length g).1]? = _
  exact List.getElem?_eq_getElem hlt

/-! ## The catalog -/

theorem getAllTeenNumbers_eq : getAllTeenNumbers = [11, 12, 13, 14, 15, 16, 17, 18, 19] := rfl

theorem mem_getAllTeenNumbers (n : Nat) : n ∈ getAllTeenNumbers ↔ 11 ≤ n ∧ n ≤ 19 := by
  rw [getAllTeenNumbers_eq]
  simp only [List.mem_cons, List.mem_singleton, List.not_mem_nil, or_false]
  omega

theorem getAllTeenNumbers_nodup : getAllTeenNumbers.Nodup := by decide

theorem teenWord_of_mem (n : Nat) (h : n ∈ getAllTeenNumbers) :
    teenWord n = some (wordOrEmpty n) := by
  rw [getAllTeenNumbers_eq] at h
  simp only [List.mem_cons, List.mem_singleton, List.not_mem_nil, or_false] at h
  rcases h with h | h | h | h | h | h | h | h | h <;> subst h <;> rfl

theorem wordOrEmpty_injOn (a : Nat) (ha : a ∈ getAllTeenNumbers) (b : Nat)
    (hb : b ∈ getAllTeenNumbers) (h : wordOrEmpty a = wordOrEmpty b) : a = b := by
  rw [getAllTeenNumbers_eq] at ha hb
  simp only [List.mem_cons, List.mem_singleton, List.not_mem_nil, or_false] at ha hb
  rcases ha with h1 | h1 | h1 | h1 | h1 | h1 | h1 | h1 | h1 <;>
    rcases hb with h2 | h2 | h2 | h2 | h2 | h2 | h2 | h2 | h2 <;>
    subst h1 <;> subst h2 <;> first | rfl | (exact absurd h (by decide))

theorem mapThrowing_eq_map {α β : Type} (f : α → Option β) (f' : α → β) (l : List α)
    (h : ∀ a ∈ l, f a = some (f' a)) : mapThrowing f l = some (l.map f') := by
  induction l with
  | nil => rfl
  | cons a as ih =>
    have ha : f a = some (f' a) := h a (List.mem_cons_self _ _)
    have has : mapThrowing f as = some (as.map f') :=
      ih fun x hx => h x (List.mem_cons_of_mem _ hx)
    simp [mapThrowing, ha, has]

/-! ## `pushBounded` -/

theorem pushBounded_length_le {α : Type} (xs : List α) (x : α) (cap : Nat)
    (h : xs.length ≤ cap) : (pushBounded xs x cap).length ≤ cap := by
  have hl : (xs ++ [x]).length = xs.length + 1 := by simp
  show (if (xs ++ [x]).length > cap then (xs ++ [x]).drop 1 else xs ++ [x]).length ≤ cap
  split
  · rw [List.length_drop, hl]; omega
  · omega

theorem pushBounded_getLast? {α : Type} (xs : List α) (x : α) (cap : Nat) (hcap : 0 < cap) :
    (pushBounded xs x cap).getLast? = some x := by
  show (if (xs ++ [x]).length > cap then (xs ++ [x]).drop 1
    else xs ++ [x]).getLast? = some x
  split
  · rename_i hlen
    cases xs with
    | nil => simp at hlen; omega
    | cons a as => simp
  · simp

/-! ## `getNextNumber` -/

theorem getRandomElement_eq {α : Type} (xs : List α) (g : Rng) (h : xs ≠ []) :
    ∃ x, x ∈ xs ∧ getRandomElement xs g = (some x, (getRandomElement xs g).2) := by
  obtain ⟨x, hx, hmem⟩ := getRandomElement_mem xs g h
  exact ⟨x, hmem, Prod.ext hx rfl⟩

theorem getNextNumber_available (s : GameState) (g : Rng)
    (h : getAllTeenNumbers.filter (fun n => !s.usedNumbers.contains n) ≠ []) :
    ∃ n g', getNextNumber s g = some (n,
        { s with usedNumbers := pushBounded s.usedNumbers n CONFIG.minUniqueBeforeRepeat }, g') ∧
      n ∈ getAllTeenNumbers ∧ n ∉ s.usedNumbers := by
  obtain ⟨x, hx, heq⟩ := getRandomElement_eq _ g h
  have hpos : 0 < (getAllTeenNumbers.filter (fun n => !s.usedNumbers.contains n)).length :=
    List.length_pos.mpr h
  refine ⟨x, (getRandomElement
    (getAllTeenNumbers.filter (fun n => !s.usedNumbers.contains n)) g).2, ?_, ?_, ?_⟩
  · unfold getNextNumber
    simp only [gt_iff_lt, hpos, if_true]
    rw [heq]
  · exact (List.mem_filter.mp hx).1
  · have := (List.mem_filter.mp hx).2
    simpa using this

theorem getNextNumber_exhausted (s : GameState) (g : Rng)
    (h : getAllTeenNumbers.filter (fun n => !s.usedNumbers.contains n) = []) :
    ∃ n g', getNextNumber s g = some (n,
        { s with usedNumbers := pushBounded [] n CONFIG.minUniqueBeforeRepeat }, g') ∧
      n ∈ getAllTeenNumbers := by
  obtain ⟨x, hx, heq⟩ := getRandomElement_eq getAllTeenNumbers g (by decide)
  refine ⟨x, (getRandomElement getAllTeenNumbers g).2, ?_, hx⟩
  unfold getNextNumber
  simp only [h, List.length_nil, gt_iff_lt, Nat.lt_irrefl, if_false]
  rw [heq]

theorem available_ne_nil_iff (used : List Nat) :
    getAllTeenNumbers.filter (fun n => !used.contains n) ≠ [] ↔
      ∃ m, 11 ≤ m ∧ m ≤ 19 ∧ m ∉ used := by
  constructor
  · intro h
    obtain ⟨m, hm⟩ := List.exists_mem_of_ne_nil _ h
    have h1 := List.mem_filter.mp hm
    have h2 := (mem_getAllTeenNumbers m).mp h1.1
    exact ⟨m, h2.1, h2.2, by simpa using h1.2⟩
  · rintro ⟨m, h1, h2, h3⟩ hnil
    have : m ∈ getAllTeenNumbers.filter (fun n => !used.contains n) :=
      List.mem_filter.mpr ⟨(mem_getAllTeenNumbers m).mpr ⟨h1, h2⟩, by simpa using h3⟩
    rw [hnil] at this
    exact absurd this (List.not_mem_nil _)

/-- C5: `getNextNumber` always returns a number in 11..19.  When some number of 11..19 is
absent from `usedNumbers`, the result is not in `usedNumbers` as it was before the call and is
pushed onto it; when none is absent, `usedNumbers` is cleared first, so it becomes `[n]`.  In
both cases the result ends up as the last entry, the oldest entry is dropped when the length
exceeds 6, a length of at most 6 is preserved, and no other field of the state changes. -/
theorem getNextNumber_spec (s : GameState) (g : Rng) :
    ∃ n s' g', getNextNumber s g = some (n, s', g') ∧
      (11 ≤ n ∧ n ≤ 19) ∧
      ((∃ m, 11 ≤ m ∧ m ≤ 19 ∧ m ∉ s.usedNumbers) →
        n ∉ s.usedNumbers ∧
        s'.usedNumbers =
          if (s.usedNumbers ++ [n]).length > 6 then (s.usedNumbers ++ [n]).drop 1
          else s.usedNumbers ++ [n]) ∧
      ((∀ m, 11 ≤ m → m ≤ 19 → m ∈ s.usedNumbers) → s'.usedNumbers = [n]) ∧
      s'.usedNumbers.getLast? = some n ∧
      (s.usedNumbers.length ≤ 6 → s'.usedNumbers.length ≤ 6) ∧
      s' = { s with usedNumbers := s'.usedNumbers } := by
  by_cases h : getAllTeenNumbers.filter (fun n => !s.usedNumbers.contains n) ≠ []
  · obtain ⟨n, g', heq, hmem, hnot⟩ := getNextNumber_available s g h
    refine ⟨n, _, g', heq, (mem_getAllTeenNumbers n).mp hmem, ?_, ?_, ?_, ?_, rfl⟩
    · intro _
      exact ⟨hnot, rfl⟩
    · intro hall
      exact absurd (hall n ((mem_getAllTeenNumbers n).mp hmem).1
        ((mem_getAllTeenNumbers n).mp hmem).2) hnot
    · exact pushBounded_getLast? s.usedNumbers n CONFIG.minUniqueBeforeRepeat (by decide)
    · intro hlen
      exact pushBounded_length_le _ _ _ hlen
  · have h' : getAllTeenNumbers.filter (fun n => !s.usedNumbers.contains n) = [] := by
      simpa using h
    obtain ⟨n, g', heq, hmem⟩ := getNextNumber_exhausted s g h'
    refine ⟨n, _, g', heq, (mem_getAllTeenNumbers n).mp hmem, ?_, ?_, ?_, ?_, rfl⟩
    · intro hex
      exact absurd ((available_ne_nil_iff s.usedNumbers).mpr hex) h
    · intro _
      rfl
    · exact pushBounded_getLast? [] n CONFIG.minUniqueBeforeRepeat (by decide)
    · intro _
      exact pushBounded_length_le [] n CONFIG.minUniqueBeforeRepeat (by decide)

/-! ## `getWrongOptions` -/

theorem others_length (c : Nat) (hc : c ∈ getAllTeenNumbers) :
    (getAllTeenNumbers.filter fun n => n != c).length = 8 := by
  rw [getAllTeenNumbers_eq] at hc
  simp only [List.mem_cons, List.mem_singleton, List.not_mem_nil, or_false] at hc
  rcases hc with h | h | h | h | h | h | h | h | h <;> subst h <;> rfl

theorem getWrongOptions_eq (c count : Nat) (g : Rng) :
    ∃ ns : List Nat,
      getWrongOptions c count g = (some (ns.map wordOrEmpty), (getWrongOptions c count g).2) ∧
      ns.Nodup ∧ (∀ n ∈ ns, n ∈ getAllTeenNumbers ∧ n ≠ c) ∧
      (c ∈ getAllTeenNumbers → ns.length = min count 8) := by
  have hperm := shuffleArray_perm (getAllTeenNumbers.filter fun n => n != c) g
  have hmem : ∀ n ∈ (shuffleArray (getAllTeenNumbers.filter fun n => n != c) g).1,
      n ∈ getAllTeenNumbers ∧ n ≠ c := by
    intro n hn
    have h1 := List.mem_filter.mp (hperm.mem_iff.mp hn)
    exact ⟨h1.1, by simpa using h1.2⟩
  have hnodup : (shuffleArray (getAllTeenNumbers.filter fun n => n != c) g).1.Nodup :=
    hperm.nodup_iff.mpr (getAllTeenNumbers_nodup.filter _)
  refine ⟨(shuffleArray (getAllTeenNumbers.filter fun n => n != c) g).1.take count,
    ?_, ?_, ?_, ?_⟩
  · refine Prod.ext ?_ rfl
    show mapThrowing teenWord _ = _
    exact mapThrowing_eq_map teenWord wordOrEmpty _ fun n hn =>
      teenWord_of_mem n (hmem n (List.mem_of_mem_take hn)).1
  · exact hnodup.sublist (List.take_sublist _ _)
  · intro n hn
    exact hmem n (List.mem_of_mem_take hn)
  · intro hc
    rw [List.length_take, hperm.length_eq, others_length c hc]

theorem wordOrEmpty_map_nodup (ns : List Nat) (hns : ns.Nodup)
    (hmem : ∀ n ∈ ns, n ∈ getAllTeenNumbers) : (ns.map wordOrEmpty).Nodup :=
  List.Nodup.map_on
    (fun a ha b hb hab => wordOrEmpty_injOn a (hmem a ha) b (hmem b hb) hab) hns

theorem wordOrEmpty_not_mem_map (c : Nat) (hc : c ∈ getAllTeenNumbers) (ns : List Nat)
    (hmem : ∀ n ∈ ns, n ∈ getAllTeenNumbers ∧ n ≠ c) : wordOrEmpty c ∉ ns.map wordOrEmpty := by
  intro h
  obtain ⟨n, hn, hw⟩ := List.mem_map.mp h
  exact (hmem n hn).2 (wordOrEmpty_injOn n (hmem n hn).1 c hc hw)

/-- C7: for a teen number `correctNumber` and `count ≤ 8`, `getWrongOptions` returns exactly
`count` pairwise distinct words, each the canonical word of a teen number other than
`correctNumber`; the word of `correctNumber` is not among them. -/
theorem getWrongOptions_spec (correctNumber count : Nat) (g : Rng)
    (hc : 11 ≤ correctNumber ∧ correctNumber ≤ 19) (hcount : count ≤ 8) :
    ∃ ws, (getWrongOptions correctNumber count g).1 = some ws ∧
      ws.length = count ∧ ws.Nodup ∧
      (∀ w ∈ ws, ∃ n, (11 ≤ n ∧ n ≤ 19) ∧ n ≠ correctNumber ∧ teenWord n = some w) ∧
      (∀ w ∈ ws, teenWord correctNumber ≠ some w) := by
  have hcm := (mem_getAllTeenNumbers correctNumber).mpr hc
  obtain ⟨ns, heq, hnodup, hmem, hlen⟩ := getWrongOptions_eq correctNumber count g
  refine ⟨ns.map wordOrEmpty, by rw [heq], ?_, ?_, ?_, ?_⟩
  · rw [List.length_map, hlen hcm]
    exact Nat.min_eq_left hcount
  · exact wordOrEmpty_map_nodup ns hnodup fun n hn => (hmem n hn).1
  · intro w hw
    obtain ⟨n, hn, rfl⟩ := List.mem_map.mp hw
    exact ⟨n, (mem_getAllTeenNumbers n).mp (hmem n hn).1, (hmem n hn).2,
      teenWord_of_mem n (hmem n hn).1⟩
  · intro w hw hcw
    rw [teenWord_of_mem correctNumber hcm] at hcw
    have : wordOrEmpty correctNumber ∈ ns.map wordOrEmpty := by
      rw [Option.some.inj hcw]; exact hw
    exact wordOrEmpty_not_mem_map correctNumber hcm ns hmem this

/-- Witness of C7 at `correctNumber = 13`, `count = 3` and the all-zero random stream. -/
theorem getWrongOptions_spec_witness :
    (11 ≤ 13 ∧ 13 ≤ 19) ∧ 3 ≤ 8 ∧
    ∃ ws, (getWrongOptions 13 3 fun _ => 0).1 = some ws ∧
      ws.length = 3 ∧ ws.Nodup ∧
      (∀ w ∈ ws, ∃ n, (11 ≤ n ∧ n ≤ 19) ∧ n ≠ 13 ∧ teenWord n = some w) ∧
      (∀ w ∈ ws, teenWord 13 ≠ some w) :=
  ⟨by decide, by decide, getWrongOptions_spec 13 3 (fun _ => 0) (by decide) (by decide)⟩

/-! ## Question generators -/

theorem getNextNumber_total (s : GameState) (g : Rng) :
    ∃ n used g', getNextNumber s g = some (n, { s with usedNumbers := used }, g') ∧
      n ∈ getAllTeenNumbers := by
  by_cases h : getAllTeenNumbers.filter (fun n => !s.usedNumbers.contains n) ≠ []
  · obtain ⟨n, g', heq, hmem, _⟩ := getNextNumber_available s g h
    exact ⟨n, _, g', heq, hmem⟩
  · have h' : getAllTeenNumbers.filter (fun n => !s.usedNumbers.contains n) = [] := by
      simpa using h
    obtain ⟨n, g', heq, hmem⟩ := getNextNumber_exhausted s g h'
    exact ⟨n, _, g', heq, hmem⟩

theorem options_of_perm (opts ds : List String) (w : String) (hperm : opts.Perm (w :: ds))
    (hlen : ds.length = 3) (hnodup : ds.Nodup) (hw : w ∉ ds) :
    opts.length = 4 ∧ opts.Nodup ∧ opts.count w = 1 := by
  have hnd : (w :: ds).Nodup := List.nodup_cons.mpr ⟨hw, hnodup⟩
  refine ⟨?_, hperm.nodup_iff.mpr hnd, ?_⟩
  · rw [hperm.length_eq, List.length_cons, hlen]
  · rw [hperm.count_eq, List.count_cons_self, List.count_eq_zero_of_not_mem hw]

theorem wordOptions_spec (num : Nat) (hnum : num ∈ getAllTeenNumbers) (g : Rng) :
    ∃ opts g', wordOptions num (wordOrEmpty num) g = some (opts, g') ∧
      opts.length = 4 ∧ opts.Nodup ∧ opts.count (wordOrEmpty num) = 1 := by
  obtain ⟨ns, heq, hnodup, hmem, hlen⟩ := getWrongOptions_eq num 3 g
  refine ⟨(shuffleArray (wordOrEmpty num :: ns.map wordOrEmpty) (getWrongOptions num 3 g).2).1,
    (shuffleArray (wordOrEmpty num :: ns.map wordOrEmpty) (getWrongOptions num 3 g).2).2,
    ?_, ?_⟩
  · unfold wordOptions
    rw [heq]
  · refine options_of_perm _ (ns.map wordOrEmpty) _ (shuffleArray_perm _ _) ?_ ?_ ?_
    · rw [List.length_map, hlen hnum]; rfl
    · exact wordOrEmpty_map_nodup ns hnodup fun n hn => (hmem n hn).1
    · exact wordOrEmpty_not_mem_map num hnum ns hmem

theorem misspellings_spec (num : Nat) (hnum : num ∈ getAllTeenNumbers) :
    ∃ known, MISSPELLINGS.lookup (wordOrEmpty num) = some known ∧
      known.length = 3 ∧ known.Nodup ∧ wordOrEmpty num ∉ known := by
  rw [getAllTeenNumbers_eq] at hnum
  simp only [List.mem_cons, List.mem_singleton, List.not_mem_nil, or_false] at hnum
  rcases hnum with h | h | h | h | h | h | h | h | h <;> subst h <;>
    exact ⟨_, rfl, by decide, by decide, by decide⟩

theorem additionProblems_spec (num : Nat) (hnum : num ∈ getAllTeenNumbers) :
    ∃ problems, ADDITION_PROBLEMS.lookup num = some problems ∧ problems ≠ [] ∧
      ∀ p ∈ problems, p.1 + p.2 = num := by
  rw [getAllTeenNumbers_eq] at hnum
  simp only [List.mem_cons, List.mem_singleton, List.not_mem_nil, or_false] at hnum
  rcases hnum with h | h | h | h | h | h | h | h | h <;> subst h <;>
    exact ⟨_, rfl, by decide, by decide⟩

theorem generateNumberRecognition_spec (s : GameState) (g : Rng) :
    ∃ q used g', generateNumberRecognition s g = some (q, { s with usedNumbers := used }, g') ∧
      WellFormedQuestion q := by
  obtain ⟨n, used, g1, hnext, hn⟩ := getNextNumber_total s g
  obtain ⟨opts, g2, hopts, h4, hnd, hcount⟩ := wordOptions_spec n hn g1
  refine ⟨{ kind := "Number Recognition", instruction := "What number is this?",
            display := .number n, options := opts, correctAnswer := wordOrEmpty n,
            number := n }, used, g2, ?_, ?_⟩
  · simp only [generateNumberRecognition, hnext, teenWord_of_mem n hn, hopts,
      Option.bind_eq_bind, Option.some_bind]
  · exact ⟨h4, hnd, hcount, (mem_getAllTeenNumbers n).mp hn, teenWord_of_mem n hn⟩

theorem generateCountingObjects_spec (s : GameState) (g : Rng) :
    ∃ q used g', generateCountingObjects s g = some (q, { s with usedNumbers := used }, g') ∧
      WellFormedQuestion q := by
  obtain ⟨n, used, g1, hnext, hn⟩ := getNextNumber_total s g
  obtain ⟨opts, g2, hopts, h4, hnd, hcount⟩ := wordOptions_spec n hn g1
  obtain ⟨object, _, hobj⟩ := getRandomElement_eq COUNT_OBJECTS g2 (by decide)
  refine ⟨{ kind := "Count & Identify", instruction := "How many objects are there?",
            display := .objects object n, options := opts, correctAnswer := wordOrEmpty n,
            number := n }, used, (getRandomElement COUNT_OBJECTS g2).2, ?_, ?_⟩
  · simp only [generateCountingObjects, hnext, teenWord_of_mem n hn, hopts,
      Option.bind_eq_bind, Option.some_bind]
    rw [hobj]
    rfl
  · exact ⟨h4, hnd, hcount, (mem_getAllTeenNumbers n).mp hn, teenWord_of_mem n hn⟩

theorem generateAddition_spec (s : GameState) (g : Rng) :
    ∃ q used g', generateAddition s g = some (q, { s with usedNumbers := used }, g') ∧
      WellFormedQuestion q ∧ ∃ a b, q.display = .math a b ∧ a + b = q.number := by
  obtain ⟨n, used, g1, hnext, hn⟩ := getNextNumber_total s g
  obtain ⟨problems, hprob, hne, hsum⟩ := additionProblems_spec n hn
  obtain ⟨p, hp, hpick⟩ := getRandomElement_eq problems g1 hne
  obtain ⟨opts, g3, hopts, h4, hnd, hcount⟩ :=
    wordOptions_spec n hn (getRandomElement problems g1).2
  refine ⟨{ kind := "Simple Addition", instruction := "What is the answer?",
            display := .math p.1 p.2, options := opts, correctAnswer := wordOrEmpty n,
            number := n }, used, g3, ?_, ?_, p.1, p.2, rfl, hsum p hp⟩
  · simp only [generateAddition, hnext, hprob, Option.bind_eq_bind, Option.some_bind]
    rw [hpick]
    simp only [teenWord_of_mem n hn, hopts, Option.bind_eq_bind, Option.some_bind]
  · exact ⟨h4, hnd, hcount, (mem_getAllTeenNumbers n).mp hn, teenWord_of_mem n hn⟩

theorem generateSpellingCheck_spec (s : GameState) (g : Rng) :
    ∃ q used g', generateSpellingCheck s g = some (q, { s with usedNumbers := used }, g') ∧
      WellFormedQuestion q := by
  obtain ⟨n, used, g1, hnext, hn⟩ := getNextNumber_total s g
  obtain ⟨known, hknown, hlen, hknd, hnot⟩ := misspellings_spec n hn
  have hperm := shuffleArray_perm known g1
  have hopts := options_of_perm
    (shuffleArray (wordOrEmpty n :: (shuffleArray known g1).1.take 3) (shuffleArray known g1).2).1
    ((shuffleArray known g1).1.take 3) (wordOrEmpty n) (shuffleArray_perm _ _)
    (by rw [List.length_take, hperm.length_eq, hlen]; rfl)
    ((hperm.nodup_iff.mpr hknd).sublist (List.take_sublist _ _))
    (fun h => hnot (hperm.mem_iff.mp (List.mem_of_mem_take h)))
  refine ⟨{ kind := "Spelling Check", instruction := "Which one is spelled correctly?",
            display := .number n,
            options := (shuffleArray (wordOrEmpty n :: (shuffleArray known g1).1.take 3)
              (shuffleArray known g1).2).1,
            correctAnswer := wordOrEmpty n, number := n }, used,
          (shuffleArray (wordOrEmpty n :: (shuffleArray known g1).1.take 3)
              (shuffleArray known g1).2).2, ?_, ?_⟩
  · simp only [generateSpellingCheck, hnext, teenWord_of_mem n hn, hknown,
      Option.bind_eq_bind, Option.some_bind]
  · exact ⟨hopts.1, hopts.2.1, hopts.2.2, (mem_getAllTeenNumbers n).mp hn,
      teenWord_of_mem n hn⟩

/-- C1: in every state and for every random stream, each of the four generators returns a
question with exactly 4 pairwise distinct options, exactly one of which is `correctAnswer`,
where `correctAnswer` is the word of the question's `number`, a value in 11..19. -/
theorem generators_wellFormed (s : GameState) (g : Rng) :
    (∃ q s' g', generateNumberRecognition s g = some (q, s', g') ∧ WellFormedQuestion q) ∧
    (∃ q s' g', generateCountingObjects s g = some (q, s', g') ∧ WellFormedQuestion q) ∧
    (∃ q s' g', generateAddition s g = some (q, s', g') ∧ WellFormedQuestion q) ∧
    (∃ q s' g', generateSpellingCheck s g = some (q, s', g') ∧ WellFormedQuestion q) := by
  obtain ⟨q1, u1, g1, h1, w1⟩ := generateNumberRecognition_spec s g
  obtain ⟨q2, u2, g2, h2, w2⟩ := generateCountingObjects_spec s g
  obtain ⟨q3, u3, g3, h3, w3, _⟩ := generateAddition_spec s g
  obtain ⟨q4, u4, g4, h4, w4⟩ := generateSpellingCheck_spec s g
  exact ⟨⟨q1, _, g1, h1, w1⟩, ⟨q2, _, g2, h2, w2⟩, ⟨q3, _, g3, h3, w3⟩, ⟨q4, _, g4, h4, w4⟩⟩

/-! ## Answer handling -/

theorem getTip_state (s : GameState) (num : Option Nat) (g : Rng) (r : String × GameState × Rng)
    (h : getTip s num g = some r) : ∃ tips, r.2.1 = { s with usedTips := tips } := by
  unfold getTip at h
  split at h
  · exact absurd h (by simp)
  · simp only at h
    split at h
    · cases h
      exact ⟨s.usedTips, rfl⟩
    · split at h
      · cases h
        exact ⟨_, rfl⟩
      · exact absurd h (by simp)

theorem finishAnswer_state (s : GameState) (g : Rng) :
    ∃ tips btn, (finishAnswer s g).state = { s with usedTips := tips, nextBtnDisabled := btn } := by
  unfold finishAnswer showTip
  cases h : getTip s s.currentAnswer g with
  | none => exact ⟨s.usedTips, s.nextBtnDisabled, rfl⟩
  | some r =>
    obtain ⟨tips, ht⟩ := getTip_state s _ g r h
    refine ⟨tips, false, ?_⟩
    simp only [Option.map_some', enableNextButton, ht]

theorem doubleInt_of_small (x : Int) (h : x.natAbs ≤ 9007199254740992) : doubleInt x = x := by
  unfold doubleInt
  rw [if_pos]
  exact h

set_option maxRecDepth 100000 in
theorem mathFloorDivMul_table :
    ∀ i : Fin 153, mathFloorDivMul ((i.val : Int) - 30) 15 30 = 2 * ((i.val : Int) - 30) := by
  decide

theorem mathFloorDivMul_eq (t : Int) (h1 : -30 ≤ t) (h2 : t ≤ 122) :
    mathFloorDivMul t 15 30 = 2 * t := by
  have hlt : (t + 30).toNat < 153 := by omega
  have h := mathFloorDivMul_table ⟨(t + 30).toNat, hlt⟩
  have ht : (((t + 30).toNat : Nat) : Int) - 30 = t := by omega
  simp only at h
  rw [ht] at h
  exact h

theorem totalPoints_eq (t : Int) (k : Nat) (h1 : -30 ≤ t) (h2 : t ≤ 122)
    (hk : k ≤ 1125899906842624) : totalPoints t k = 10 + 2 * t + 5 * k := by
  unfold totalPoints
  simp only [CONFIG]
  rw [mathFloorDivMul_eq t h1 h2, doubleInt_of_small ((k : Int) * ((5 : Nat) : Int)) (by omega),
    doubleInt_of_small (((10 : Nat) : Int) + 2 * t) (by omega),
    doubleInt_of_small _ (by omega)]
  push_cast
  omega

theorem floor_timeBonus (t : Int) : ⌊(t : ℚ) / 15 * 30⌋ = t * 30 / 15 := by
  have h1 : (t : ℚ) / 15 * 30 = ((2 * t : ℤ) : ℚ) := by push_cast; ring
  rw [h1, Int.floor_intCast]
  omega

theorem stopTimer_eq (s : GameState) :
    stopTimer s = { s with timerInterval := false,
                           liveTimers := if s.timerInterval then s.liveTimers - 1
                                         else s.liveTimers } := by
  unfold stopTimer
  cases h : s.timerInterval with
  | true => simp
  | false =>
    cases s
    simp_all

theorem handleAnswer_correct_state (s : GameState) (g : Rng) (w : String)
    (hs : s.answered = false) :
    ∃ tips btn, (handleAnswer s w w g).state =
      { s with timerInterval := false,
               liveTimers := if s.timerInterval then s.liveTimers - 1 else s.liveTimers,
               answered := true,
               score := doubleInt (s.score + totalPoints s.timeRemaining s.streak),
               streak := s.streak + 1,
               correctAnswers := s.correctAnswers + 1,
               usedTips := tips, nextBtnDisabled := btn } := by
  unfold handleAnswer
  simp only [hs, Bool.false_eq_true, if_false, decide_True, if_true]
  obtain ⟨tips, btn, h⟩ := finishAnswer_state
    { stopTimer s with
        answered := true,
        score := doubleInt
          ((stopTimer s).score + totalPoints (stopTimer s).timeRemaining (stopTimer s).streak),
        streak := (stopTimer s).streak + 1,
        correctAnswers := (stopTimer s).correctAnswers + 1 } g
  refine ⟨tips, btn, ?_⟩
  rw [h, stopTimer_eq]

theorem handleAnswer_wrong_state (s : GameState) (g : Rng) (selected correct : String)
    (hs : s.answered = false) (hne : selected ≠ correct) :
    ∃ tips btn, (handleAnswer s selected correct g).state =
      { s with timerInterval := false,
               liveTimers := if s.timerInterval then s.liveTimers - 1 else s.liveTimers,
               answered := true, streak := 0,
               incorrectAnswers := s.incorrectAnswers + 1,
               usedTips := tips, nextBtnDisabled := btn } := by
  unfold handleAnswer
  simp only [hs, Bool.false_eq_true, if_false, hne, decide_False]
  obtain ⟨tips, btn, h⟩ := finishAnswer_state
    { stopTimer s with
        answered := true, streak := 0,
        incorrectAnswers := (stopTimer s).incorrectAnswers + 1 } g
  refine ⟨tips, btn, ?_⟩
  rw [h, stopTimer_eq]

theorem handleTimeout_eq_wrong (s : GameState) (g : Rng) (selected correct : String)
    (hne : selected ≠ correct) :
    handleTimeout s g = handleAnswer s selected correct g := by
  unfold handleTimeout handleAnswer
  simp only [hne, decide_False, Bool.false_eq_true, if_false]

theorem handleTimeout_state (s : GameState) (g : Rng) (hs : s.answered = false) :
    ∃ tips btn, (handleTimeout s g).state =
      { s with timerInterval := false,
               liveTimers := if s.timerInterval then s.liveTimers - 1 else s.liveTimers,
               answered := true, streak := 0,
               incorrectAnswers := s.incorrectAnswers + 1,
               usedTips := tips, nextBtnDisabled := btn } := by
  rw [handleTimeout_eq_wrong s g "a" "b" (by decide)]
  exact handleAnswer_wrong_state s g "a" "b" hs (by decide)

theorem handleAnswer_answered (s : GameState) (g : Rng) (selected correct : String)
    (hs : s.answered = true) : handleAnswer s selected correct g = ⟨s, g, false⟩ := by
  unfold handleAnswer
  simp only [hs, if_true]

theorem handleTimeout_answered (s : GameState) (g : Rng) (hs : s.answered = true) :
    handleTimeout s g = ⟨s, g, false⟩ := by
  unfold handleTimeout
  simp only [hs, if_true]

theorem handleAnswer_correct_score (s : GameState) (g : Rng) (w : String)
    (hs : s.answered = false) (h1 : -30 ≤ s.timeRemaining) (h2 : s.timeRemaining ≤ 122)
    (hscore : s.score.natAbs ≤ 1125899906842624) (hstreak : s.streak ≤ 1125899906842624) :
    (handleAnswer s w w g).state.score = s.score + (10 + 2 * s.timeRemaining + 5 * s.streak) := by
  obtain ⟨tips, btn, h⟩ := handleAnswer_correct_state s g w hs
  rw [h]
  show doubleInt (s.score + totalPoints s.timeRemaining s.streak) = _
  rw [totalPoints_eq _ _ h1 h2 hstreak]
  exact doubleInt_of_small _ (by omega)

/-- C2 as stated fails where double-precision arithmetic is not exact.  With
`timeRemaining = 123` a correct answer adds 255 points, because `(123 / 15) * 30` is
`245.99999999999997` in doubles, whereas `10 + floor(123 / 15 * 30) + 5 * 0 = 256`.  With
`score = 2 ^ 53`, `timeRemaining = 15` and `streak = 1` the score grows by 44, because
`2 ^ 53 + 45` is not a double, whereas `10 + floor(15 / 15 * 30) + 5 * 1 = 45`. -/
theorem handleAnswer_correct_fails :
    (({ sampleState with timeRemaining := 123 } : GameState).answered = false ∧
      (handleAnswer { sampleState with timeRemaining := 123 } "eleven" "eleven"
          zeroRng).state.score =
        ({ sampleState with timeRemaining := 123 } : GameState).score + 255 ∧
      (10 : Int) + ⌊((123 : Int) : ℚ) / 15 * 30⌋ + 5 * ((0 : Nat) : Int) = 256 ∧
      (10 : Int) + (123 : Int) * 30 / 15 + 5 * ((0 : Nat) : Int) = 256) ∧
    (({ sampleState with score := 2 ^ 53, streak := 1 } : GameState).answered = false ∧
      (handleAnswer { sampleState with score := 2 ^ 53, streak := 1 } "eleven" "eleven"
          zeroRng).state.score =
        ({ sampleState with score := 2 ^ 53, streak := 1 } : GameState).score + 44 ∧
      (10 : Int) + ⌊((15 : Int) : ℚ) / 15 * 30⌋ + 5 * ((1 : Nat) : Int) = 45) := by
  have hf1 : ⌊((123 : Int) : ℚ) / 15 * 30⌋ = 246 := by
    rw [floor_timeBonus]
    decide
  have hf2 : ⌊((15 : Int) : ℚ) / 15 * 30⌋ = 30 := by
    rw [floor_timeBonus]
    decide
  rw [hf1, hf2]
  decide

/-- C2, amended: in a state with `answered = false`, an integer `timeRemaining` from -30 to
122 and `score`, `streak` and `correctAnswers` at most `2 ^ 50` in absolute value (where the
double arithmetic of the code is exact), `handleAnswer` with the correct word adds
`pointsCorrect + floor(timeRemaining / timePerQuestion * maxTimeBonus) + streak * streakBonus`,
that is `10 + floor(timeRemaining * 30 / 15) + 5 * streak` with the streak before the call, to
`score`, increases `streak` and `correctAnswers` by 1 and leaves `incorrectAnswers` unchanged;
with `timeRemaining = 15` and `streak = 0` the score grows by exactly 40. -/
theorem handleAnswer_correct (s : GameState) (g : Rng) (selected correct : String)
    (hs : s.answered = false) (hsel : selected = correct)
    (ht : -30 ≤ s.timeRemaining ∧ s.timeRemaining ≤ 122)
    (hsafe : s.score.natAbs ≤ 2 ^ 50 ∧ s.streak ≤ 2 ^ 50 ∧ s.correctAnswers ≤ 2 ^ 50) :
    (handleAnswer s selected correct g).state.score =
        s.score + ((CONFIG.pointsCorrect : Int) +
          ⌊(s.timeRemaining : ℚ) / (CONFIG.timePerQuestion : ℚ) * (CONFIG.maxTimeBonus : ℚ)⌋ +
          (s.streak : Int) * (CONFIG.streakBonus : Int)) ∧
      (handleAnswer s selected correct g).state.score =
        s.score + (10 + s.timeRemaining * 30 / 15 + 5 * (s.streak : Int)) ∧
      (handleAnswer s selected correct g).state.streak = s.streak + 1 ∧
      (handleAnswer s selected correct g).state.correctAnswers = s.correctAnswers + 1 ∧
      (handleAnswer s selected correct g).state.incorrectAnswers = s.incorrectAnswers ∧
      (s.timeRemaining = 15 → s.streak = 0 →
        (handleAnswer s selected correct g).state.score = s.score + 40) := by
  subst hsel
  have hpow : (2 : Nat) ^ 50 = 1125899906842624 := by norm_num
  rw [hpow] at hsafe
  have hscore := handleAnswer_correct_score s g selected hs ht.1 ht.2 hsafe.1 hsafe.2.1
  obtain ⟨tips, btn, h⟩ := handleAnswer_correct_state s g selected hs
  have hq : ⌊(s.timeRemaining : ℚ) / ((15 : ℕ) : ℚ) * ((30 : ℕ) : ℚ)⌋ = 2 * s.timeRemaining := by
    have := floor_timeBonus s.timeRemaining
    push_cast
    rw [this]
    omega
  refine ⟨?_, ?_, ?_, ?_, ?_, ?_⟩
  · rw [hscore]
    simp only [CONFIG, hq]
    push_cast
    ring
  · rw [hscore]
    omega
  · rw [h]
  · rw [h]
  · rw [h]
  · intro h15 hk
    rw [hscore, h15, hk]
    rfl

/-- Witness of the amended C2: the sample state, answered correctly with 15 seconds left. -/
theorem handleAnswer_correct_witness :
    sampleState.answered = false ∧
    (-30 ≤ sampleState.timeRemaining ∧ sampleState.timeRemaining ≤ 122) ∧
    (sampleState.score.natAbs ≤ 2 ^ 50 ∧ sampleState.streak ≤ 2 ^ 50 ∧
      sampleState.correctAnswers ≤ 2 ^ 50) ∧
    (handleAnswer sampleState "eleven" "eleven" zeroRng).state.score = sampleState.score + 40 :=
  ⟨rfl, by decide, by decide,
    (handleAnswer_correct sampleState zeroRng "eleven" "eleven" rfl rfl (by decide)
      (by decide)).2.2.2.2.2 rfl rfl⟩

/-- C3: in a state with `answered = false`, `handleTimeout` and `handleAnswer` with a wrong
word leave the same state: `answered` becomes true, `streak` becomes 0, `incorrectAnswers`
grows by exactly 1, and `score` and `correctAnswers` are unchanged. -/
theorem timeout_same_as_wrong_answer (s : GameState) (g : Rng) (selected correct : String)
    (hs : s.answered = false) (hne : selected ≠ correct) :
    (handleTimeout s g).state = (handleAnswer s selected correct g).state ∧
      (handleTimeout s g).state.answered = true ∧
      (handleTimeout s g).state.streak = 0 ∧
      (handleTimeout s g).state.incorrectAnswers = s.incorrectAnswers + 1 ∧
      (handleTimeout s g).state.score = s.score ∧
      (handleTimeout s g).state.correctAnswers = s.correctAnswers ∧
      (handleAnswer s selected correct g).state.answered = true ∧
      (handleAnswer s selected correct g).state.streak = 0 ∧
      (handleAnswer s selected correct g).state.incorrectAnswers = s.incorrectAnswers + 1 ∧
      (handleAnswer s selected correct g).state.score = s.score ∧
      (handleAnswer s selected correct g).state.correctAnswers = s.correctAnswers := by
  rw [handleTimeout_eq_wrong s g selected correct hne]
  obtain ⟨tips, btn, h⟩ := handleAnswer_wrong_state s g selected correct hs hne
  rw [h]
  exact ⟨rfl, rfl, rfl, rfl, rfl, rfl, rfl, rfl, rfl, rfl, rfl⟩

/-- Witness of C3: the sample state with a streak of 3, timed out or answered "twelve"
where "eleven" is correct. -/
theorem timeout_same_as_wrong_answer_witness :
    ({ sampleState with streak := 3 } : GameState).answered = false ∧ "twelve" ≠ "eleven" ∧
    (handleTimeout { sampleState with streak := 3 } zeroRng).state =
      (handleAnswer { sampleState with streak := 3 } "twelve" "eleven" zeroRng).state ∧
    (handleTimeout { sampleState with streak := 3 } zeroRng).state.streak = 0 :=
  ⟨rfl, by decide,
    (timeout_same_as_wrong_answer { sampleState with streak := 3 } zeroRng "twelve" "eleven"
      rfl (by decide)).1,
    (timeout_same_as_wrong_answer { sampleState with streak := 3 } zeroRng "twelve" "eleven"
      rfl (by decide)).2.2.1⟩

theorem fireEvent_answered (s : GameState) (g : Rng) (e : AnswerEvent)
    (hs : s.answered = true) : fireEvent s g e = ⟨s, g, false⟩ := by
  cases e with
  | answer selected correct => exact handleAnswer_answered s g selected correct hs
  | timeout => exact handleTimeout_answered s g hs

theorem fireEvents_answered (es : List AnswerEvent) (s : GameState) (g : Rng)
    (hs : s.answered = true) : (fireEvents es s g).1 = s := by
  induction es generalizing g with
  | nil => rfl
  | cons e es ih =>
    show (fireEvents es (fireEvent s g e).state (fireEvent s g e).rng).1 = s
    rw [fireEvent_answered s g e hs]
    exact ih g

theorem fireEvent_unanswered (s : GameState) (g : Rng) (e : AnswerEvent)
    (hs : s.answered = false) :
    (fireEvent s g e).state.answered = true ∧
      (fireEvent s g e).state.correctAnswers + (fireEvent s g e).state.incorrectAnswers =
        s.correctAnswers + s.incorrectAnswers + 1 := by
  cases e with
  | answer selected correct =>
    show (handleAnswer s selected correct g).state.answered = true ∧ _
    by_cases h : selected = correct
    · subst h
      obtain ⟨tips, btn, hst⟩ := handleAnswer_correct_state s g selected hs
      show _ ∧ (handleAnswer s selected selected g).state.correctAnswers +
        (handleAnswer s selected selected g).state.incorrectAnswers = _
      rw [hst]
      exact ⟨rfl, by simp only; omega⟩
    · obtain ⟨tips, btn, hst⟩ := handleAnswer_wrong_state s g selected correct hs h
      show _ ∧ (handleAnswer s selected correct g).state.correctAnswers +
        (handleAnswer s selected correct g).state.incorrectAnswers = _
      rw [hst]
      exact ⟨rfl, by simp only; omega⟩
  | timeout =>
    obtain ⟨tips, btn, hst⟩ := handleTimeout_state s g hs
    show (handleTimeout s g).state.answered = true ∧
      (handleTimeout s g).state.correctAnswers + (handleTimeout s g).state.incorrectAnswers = _
    rw [hst]
    exact ⟨rfl, by simp only; omega⟩

/-- C4: once `answered` is true, `handleAnswer` (with any words) and `handleTimeout` return
at once and leave every field of the state unchanged; consequently, whatever scoring events
are fired on one question, `correctAnswers + incorrectAnswers` grows by at most 1. -/
theorem answered_guard (s : GameState) (g : Rng) (selected correct : String)
    (events : List AnswerEvent) :
    (s.answered = true →
      (handleAnswer s selected correct g).state = s ∧ (handleTimeout s g).state = s ∧
      (handleAnswer s selected correct g).threw = false ∧ (handleTimeout s g).threw = false) ∧
    (fireEvents events s g).1.correctAnswers + (fireEvents events s g).1.incorrectAnswers ≤
      s.correctAnswers + s.incorrectAnswers + 1 := by
  constructor
  · intro hs
    rw [handleAnswer_answered s g selected correct hs, handleTimeout_answered s g hs]
    exact ⟨rfl, rfl, rfl, rfl⟩
  · cases hs : s.answered with
    | true =>
      rw [fireEvents_answered events s g hs]
      omega
    | false =>
      cases events with
      | nil => show s.correctAnswers + s.incorrectAnswers ≤ _; omega
      | cons e es =>
        show (fireEvents es (fireEvent s g e).state (fireEvent s g e).rng).1.correctAnswers +
          (fireEvents es (fireEvent s g e).state (fireEvent s g e).rng).1.incorrectAnswers ≤ _
        obtain ⟨h1, h2⟩ := fireEvent_unanswered s g e hs
        rw [fireEvents_answered es _ _ h1, h2]

/-- Witness of C4: the sample state once answered; a later wrong answer, a timeout and a
further correct answer change nothing. -/
theorem answered_guard_witness :
    (handleAnswer sampleState "eleven" "eleven" zeroRng).state.answered = true ∧
    (handleAnswer (handleAnswer sampleState "eleven" "eleven" zeroRng).state
        "twelve" "eleven" zeroRng).state =
      (handleAnswer sampleState "eleven" "eleven" zeroRng).state ∧
    (handleTimeout (handleAnswer sampleState "eleven" "eleven" zeroRng).state zeroRng).state =
      (handleAnswer sampleState "eleven" "eleven" zeroRng).state :=
  ⟨by decide,
    ((answered_guard (handleAnswer sampleState "eleven" "eleven" zeroRng).state zeroRng
      "twelve" "eleven" []).1 (by decide)).1,
    ((answered_guard (handleAnswer sampleState "eleven" "eleven" zeroRng).state zeroRng
      "twelve" "eleven" []).1 (by decide)).2.1⟩

/-! ## Repeat avoidance -/

theorem exists_unused (used : List Nat) (h : used.length ≤ 6) :
    getAllTeenNumbers.filter (fun n => !used.contains n) ≠ [] := by
  rw [available_ne_nil_iff]
  by_contra hall
  have hsub : getAllTeenNumbers ⊆ used := by
    intro m hm
    by_contra hmu
    exact hall ⟨m, ((mem_getAllTeenNumbers m).mp hm).1, ((mem_getAllTeenNumbers m).mp hm).2, hmu⟩
  have hle := (getAllTeenNumbers_nodup.subperm hsub).length_le
  have h9 : getAllTeenNumbers.length = 9 := rfl
  omega

theorem pushBounded_nodup (used : List Nat) (n : Nat) (cap : Nat) (hnd : used.Nodup)
    (hn : n ∉ used) : (pushBounded used n cap).Nodup := by
  have hall : (used ++ [n]).Nodup := by
    rw [List.nodup_append]
    refine ⟨hnd, List.nodup_singleton n, ?_⟩
    intro a ha hb
    rw [List.mem_singleton] at hb
    exact hn (hb ▸ ha)
  show (if (used ++ [n]).length > cap then (used ++ [n]).drop 1 else used ++ [n]).Nodup
  split
  · exact hall.sublist (List.drop_sublist _ _)
  · exact hall

theorem windows_after_push (used : List Nat) (n : Nat) (outs : List Nat)
    (hnd : used.Nodup) (hlen : used.length ≤ 6) (hn : n ∉ used)
    (ih : ∀ k, (((pushBounded used n 6 ++ outs).drop k).take 7).Nodup) :
    ∀ k, (((used ++ n :: outs).drop k).take 7).Nodup := by
  have hall : (used ++ [n]).Nodup := by
    rw [List.nodup_append]
    refine ⟨hnd, List.nodup_singleton n, ?_⟩
    intro a ha hb
    rw [List.mem_singleton] at hb
    exact hn (hb ▸ ha)
  have hpush : pushBounded used n 6 =
      if (used ++ [n]).length > 6 then (used ++ [n]).drop 1 else used ++ [n] := rfl
  by_cases hfull : (used ++ [n]).length > 6
  · rw [hpush, if_pos hfull] at ih
    cases used with
    | nil => simp at hfull
    | cons u rest =>
      have hrest : rest.length = 5 := by
        simp only [List.length_append, List.length_cons, List.length_nil] at hfull hlen
        omega
      intro k
      cases k with
      | zero =>
        have h7 : ((u :: rest ++ n :: outs).drop 0).take 7 = u :: rest ++ [n] := by
          have : u :: rest ++ n :: outs = (u :: rest ++ [n]) ++ outs := by simp
          rw [List.drop_zero, this]
          exact List.take_left' (by simp [hrest])
        rw [h7]
        exact hall
      | succ k =>
        have := ih k
        simpa using this
  · rw [hpush, if_neg hfull] at ih
    intro k
    have := ih k
    simpa using this

theorem getNextNumbers_windows (gs : List Rng) (s : GameState) (hnd : s.usedNumbers.Nodup)
    (hlen : s.usedNumbers.length ≤ 6) :
    ∃ outs s', getNextNumbers gs s = some (outs, s') ∧ outs.length = gs.length ∧
      ∀ k, (((s.usedNumbers ++ outs).drop k).take 7).Nodup := by
  induction gs generalizing s with
  | nil =>
    refine ⟨[], s, rfl, rfl, ?_⟩
    intro k
    rw [List.append_nil]
    exact hnd.sublist ((List.take_sublist _ _).trans (List.drop_sublist _ _))
  | cons g gs ih =>
    obtain ⟨n, g', heq, _, hnot⟩ := getNextNumber_available s g (exists_unused _ hlen)
    obtain ⟨outs, s', hrun, hl, hw⟩ := ih
      { s with usedNumbers := pushBounded s.usedNumbers n CONFIG.minUniqueBeforeRepeat }
      (pushBounded_nodup _ _ _ hnd hnot) (pushBounded_length_le _ _ _ hlen)
    refine ⟨n :: outs, s', ?_, by simp [hl], ?_⟩
    · simp only [getNextNumbers, heq, hrun]
    · exact windows_after_push s.usedNumbers n outs hnd hlen hnot hw

/-- C6: starting with `usedNumbers` empty, as `startGame` leaves it before the first pick, any
number of `getNextNumber` calls with any random outcomes all return, and the values returned by
any 6 consecutive calls are pairwise distinct. -/
theorem six_consecutive_distinct (gs : List Rng) (s : GameState) (hs : s.usedNumbers = []) :
    ∃ outs s', getNextNumbers gs s = some (outs, s') ∧ outs.length = gs.length ∧
      ∀ k, ((outs.drop k).take 6).Nodup := by
  obtain ⟨outs, s', hrun, hl, hw⟩ :=
    getNextNumbers_windows gs s (by rw [hs]; exact List.nodup_nil) (by rw [hs]; decide)
  refine ⟨outs, s', hrun, hl, ?_⟩
  intro k
  have h7 := hw k
  rw [hs, List.nil_append] at h7
  have : (outs.drop k).take 6 = ((outs.drop k).take 7).take 6 := by
    rw [List.take_take]
    rfl
  rw [this]
  exact h7.sublist (List.take_sublist _ _)

/-- Witness of C6: ten calls on the all-zero stream from a state with nothing used. -/
theorem six_consecutive_distinct_witness :
    ({ sampleState with usedNumbers := [] } : GameState).usedNumbers = [] ∧
    ∃ outs s', getNextNumbers (List.replicate 10 zeroRng)
        { sampleState with usedNumbers := [] } = some (outs, s') ∧
      outs.length = (List.replicate 10 zeroRng).length ∧
      ∀ k, ((outs.drop k).take 6).Nodup :=
  ⟨rfl, six_consecutive_distinct (List.replicate 10 zeroRng)
    { sampleState with usedNumbers := [] } rfl⟩

/-! ## Question display and game flow -/

theorem generator_spec (gen : GameState → Rng → Option (Question × GameState × Rng))
    (hgen : gen ∈ generators) (s : GameState) (g : Rng) :
    ∃ q used g', gen s g = some (q, { s with usedNumbers := used }, g') ∧
      WellFormedQuestion q := by
  simp only [generators, List.mem_cons, List.mem_singleton, List.not_mem_nil, or_false] at hgen
  rcases hgen with h | h | h | h <;> subst h
  · exact generateNumberRecognition_spec s g
  · exact generateCountingObjects_spec s g
  · obtain ⟨q, used, g', h1, h2, _⟩ := generateAddition_spec s g
    exact ⟨q, used, g', h1, h2⟩
  · exact generateSpellingCheck_spec s g

theorem displayQuestion_spec (s : GameState) (g : Rng) :
    ∃ n used g', displayQuestion s g = some
        ({ s with usedNumbers := used, currentAnswer := some n, answered := false,
                  nextBtnDisabled := true, timeRemaining := 15, timerInterval := true,
                  liveTimers := s.liveTimers + 1 }, g') ∧
      11 ≤ n ∧ n ≤ 19 := by
  obtain ⟨gen, hmem, hpick⟩ := getRandomElement_eq generators g (List.cons_ne_nil _ _)
  obtain ⟨q, used, g', hq, hwf⟩ := generator_spec gen hmem s (getRandomElement generators g).2
  refine ⟨q.number, used, g', ?_, hwf.2.2.2.1⟩
  unfold displayQuestion getRandomQuestionType
  rw [hpick]
  simp only [Option.bind_eq_bind, Option.some_bind, hq]
  rfl

theorem nextQuestion_continue (s : GameState) (g : Rng) (h : s.currentQuestion + 1 ≤ 20) :
    ∃ n used g', nextQuestion s g = some
        ({ s with currentQuestion := s.currentQuestion + 1, usedNumbers := used,
                  currentAnswer := some n, answered := false, nextBtnDisabled := true,
                  timeRemaining := 15, timerInterval := true,
                  liveTimers := s.liveTimers + 1 }, g') ∧
      11 ≤ n ∧ n ≤ 19 := by
  obtain ⟨n, used, g', hd, hn⟩ :=
    displayQuestion_spec { s with currentQuestion := s.currentQuestion + 1 } g
  refine ⟨n, used, g', ?_, hn⟩
  unfold nextQuestion
  have hnot : ¬ (s.currentQuestion + 1 > CONFIG.totalQuestions) := by
    show ¬ (s.currentQuestion + 1 > 20)
    omega
  simp only [hnot, if_false]
  rw [hd]

theorem nextQuestion_end (s : GameState) (g : Rng) (h : 20 < s.currentQuestion + 1) :
    nextQuestion s g =
      some (endGame { s with currentQuestion := s.currentQuestion + 1 }, g) := by
  unfold nextQuestion
  have hpos : s.currentQuestion + 1 > CONFIG.totalQuestions := h
  simp only [hpos, if_true]

theorem startGame_spec (s : GameState) (g : Rng) :
    ∃ n used g', startGame s g = some
        ({ s with currentQuestion := 1, score := 0, streak := 0, correctAnswers := 0,
                  incorrectAnswers := 0, usedTips := [], screen := .game,
                  usedNumbers := used, currentAnswer := some n, answered := false,
                  nextBtnDisabled := true, timeRemaining := 15, timerInterval := true,
                  liveTimers := s.liveTimers + 1 }, g') ∧
      11 ≤ n ∧ n ≤ 19 := by
  obtain ⟨n, used, g', hd, hn⟩ := displayQuestion_spec
    (showScreen { s with currentQuestion := 1, score := 0, streak := 0, correctAnswers := 0,
                         incorrectAnswers := 0, usedNumbers := [], usedTips := [],
                         answered := false } .game) g
  refine ⟨n, used, g', ?_, hn⟩
  unfold startGame
  rw [hd]
  rfl

theorem endGame_eq (s : GameState) :
    endGame s = { s with
      timerInterval := false,
      liveTimers := if s.timerInterval then s.liveTimers - 1 else s.liveTimers,
      screen := .results,
      results := some
        { finalScore := s.score, finalCorrect := s.correctAnswers,
          finalIncorrect := s.incorrectAnswers,
          finalAccuracy := accuracyPercent s.correctAnswers,
          motivationalMessage := motivationalMessage (accuracyPercent s.correctAnswers) } } := by
  unfold endGame showScreen
  simp only [stopTimer_eq]

/-! ## The round invariant -/

theorem roundInv_startGame (s0 : GameState) (g : Rng) (s : GameState) (g' : Rng)
    (h : startGame s0 g = some (s, g')) : RoundInv s := by
  obtain ⟨n, used, g1, heq, _⟩ := startGame_spec s0 g
  rw [heq] at h
  cases h
  exact ⟨fun _ => ⟨rfl, Nat.le_refl 1, (by show 1 ≤ 20; decide)⟩, fun hb => by cases hb⟩

theorem roundInv_scored (s : GameState) (hinv : RoundInv s) (hs : s.answered = false)
    (s' : GameState) (hscreen : s'.screen = s.screen)
    (hq : s'.currentQuestion = s.currentQuestion) (ha : s'.answered = true)
    (hsum : s'.correctAnswers + s'.incorrectAnswers =
      s.correctAnswers + s.incorrectAnswers + 1) : RoundInv s' := by
  refine ⟨fun hg => ?_, fun _ => ha⟩
  obtain ⟨h1, h2, h3⟩ := hinv.1 (hscreen ▸ hg)
  rw [hs] at h1
  rw [ha, hq, hsum]
  simp only [Bool.false_eq_true, if_false, if_true] at h1 ⊢
  exact ⟨by omega, h2, h3⟩

theorem roundInv_handleAnswer (s : GameState) (selected correct : String) (g : Rng)
    (hinv : RoundInv s) : RoundInv (handleAnswer s selected correct g).state := by
  cases hs : s.answered with
  | true => rw [handleAnswer_answered s g selected correct hs]; exact hinv
  | false =>
    by_cases h : selected = correct
    · subst h
      obtain ⟨tips, btn, hst⟩ := handleAnswer_correct_state s g selected hs
      rw [hst]
      exact roundInv_scored s hinv hs _ rfl rfl rfl (by simp only; omega)
    · obtain ⟨tips, btn, hst⟩ := handleAnswer_wrong_state s g selected correct hs h
      rw [hst]
      exact roundInv_scored s hinv hs _ rfl rfl rfl (by simp only; omega)

theorem roundInv_handleTimeout (s : GameState) (g : Rng) (hinv : RoundInv s) :
    RoundInv (handleTimeout s g).state := by
  rw [handleTimeout_eq_wrong s g "a" "b" (by decide)]
  exact roundInv_handleAnswer s "a" "b" g hinv

theorem roundInv_timerTick (s : GameState) (g : Rng) (hinv : RoundInv s) :
    RoundInv (timerTick s g).state := by
  have h1 : RoundInv { s with timeRemaining := s.timeRemaining - 1 } := hinv
  unfold timerTick
  simp only
  split
  · exact roundInv_handleTimeout _ g h1
  · exact h1

theorem roundInv_nextQuestion (s : GameState) (g : Rng) (s' : GameState) (g' : Rng)
    (hinv : RoundInv s) (ha : s.answered = true) (h : nextQuestion s g = some (s', g')) :
    RoundInv s' := by
  by_cases hq : s.currentQuestion + 1 ≤ 20
  · obtain ⟨n, used, g1, heq, _⟩ := nextQuestion_continue s g hq
    rw [heq] at h
    cases h
    refine ⟨fun hg => ?_, fun hb => by cases hb⟩
    obtain ⟨h1, h2, _⟩ := hinv.1 hg
    rw [ha] at h1
    simp only [if_true] at h1
    simp only [Bool.false_eq_true, if_false]
    exact ⟨by omega, by omega, hq⟩
  · rw [nextQuestion_end s g (by omega), endGame_eq] at h
    cases h
    exact ⟨fun hg => (by cases hg), fun _ => ha⟩

theorem roundInv_clickNext (s : GameState) (g : Rng) (s' : GameState) (g' : Rng)
    (hinv : RoundInv s) (h : clickNext s g = some (s', g')) : RoundInv s' := by
  unfold clickNext at h
  cases hb : s.nextBtnDisabled with
  | true =>
    rw [hb] at h
    simp only [if_true] at h
    cases h
    exact hinv
  | false =>
    rw [hb] at h
    simp only [Bool.false_eq_true, if_false] at h
    exact roundInv_nextQuestion s g s' g' hinv (hinv.2 hb) h

theorem roundInv_of_reachableUI (s : GameState) (h : ReachableUI s) : RoundInv s := by
  induction h with
  | start s0 g s g' hstart => exact roundInv_startGame s0 g s g' hstart
  | answer s selected correct g _ ih => exact roundInv_handleAnswer s selected correct g ih
  | timeout s g _ ih => exact roundInv_handleTimeout s g ih
  | tick s g _ _ ih => exact roundInv_timerTick s g ih
  | next s g s' g' _ hnext ih => exact roundInv_clickNext s g s' g' ih hnext

theorem startGame_initial :
    (startGame initialState zeroRng).map Prod.fst = some sampleState := by decide

theorem reachableUI_sampleState : ReachableUI sampleState := by
  obtain ⟨r, hr, hfst⟩ := Option.map_eq_some'.mp startGame_initial
  exact ReachableUI.start initialState zeroRng sampleState r.2 (by rw [hr, ← hfst])

theorem reachable_sampleState : Reachable sampleState := by
  obtain ⟨r, hr, hfst⟩ := Option.map_eq_some'.mp startGame_initial
  exact Reachable.start initialState zeroRng sampleState r.2 (by rw [hr, ← hfst])

/-- C8 as stated fails at two places.  After `startGame` and one correct `handleAnswer` the
game is still on (question 1 answered, `nextQuestion` not yet called) and
`correctAnswers + incorrectAnswers = 1` while `currentQuestion - 1 = 0`.  And `nextQuestion`
called right after `startGame`, with question 1 unanswered, gives `currentQuestion = 2` with
both counters still 0. -/
theorem counts_identity_fails :
    (startGame initialState zeroRng).map Prod.fst = some sampleState ∧
    (Reachable (handleAnswer sampleState "eleven" "eleven" zeroRng).state ∧
      (handleAnswer sampleState "eleven" "eleven" zeroRng).state.screen = .game ∧
      (handleAnswer sampleState "eleven" "eleven" zeroRng).state.correctAnswers +
        (handleAnswer sampleState "eleven" "eleven" zeroRng).state.incorrectAnswers = 1 ∧
      (handleAnswer sampleState "eleven" "eleven" zeroRng).state.currentQuestion - 1 = 0) ∧
    (∃ s' g', nextQuestion sampleState zeroRng = some (s', g') ∧ Reachable s' ∧
      s'.screen = .game ∧ s'.answered = false ∧
      s'.correctAnswers + s'.incorrectAnswers = 0 ∧ s'.currentQuestion - 1 = 1) ∧
    ¬ (∀ s, Reachable s → s.screen = .game →
        s.correctAnswers + s.incorrectAnswers = s.currentQuestion - 1) := by
  have hreach : Reachable (handleAnswer sampleState "eleven" "eleven" zeroRng).state :=
    Reachable.answer sampleState "eleven" "eleven" zeroRng reachable_sampleState
  refine ⟨startGame_initial, ⟨hreach, by decide, by decide, by decide⟩, ?_, ?_⟩
  · obtain ⟨n, used, g', heq, _⟩ := nextQuestion_continue sampleState zeroRng (by decide)
    exact ⟨_, g', heq, Reachable.next sampleState zeroRng _ g' reachable_sampleState heq,
      rfl, rfl, rfl, rfl⟩
  · intro hall
    have := hall _ hreach (by decide)
    exact absurd this (by decide)

/-- C8, amended: in every state reachable from `startGame` through `handleAnswer`,
`handleTimeout`, timer ticks and clicks on the Next button, while the game screen is up
(before `endGame`), `correctAnswers + incorrectAnswers = currentQuestion - 1` as long as the
current question is unanswered and `= currentQuestion` once it is answered; and
`1 ≤ currentQuestion ≤ 20`. -/
theorem counts_identity (s : GameState) (h : ReachableUI s) (hgame : s.screen = .game) :
    (s.answered = false → s.correctAnswers + s.incorrectAnswers = s.currentQuestion - 1) ∧
    (s.answered = true → s.correctAnswers + s.incorrectAnswers = s.currentQuestion) ∧
    1 ≤ s.currentQuestion ∧ s.currentQuestion ≤ 20 := by
  obtain ⟨h1, h2, h3⟩ := (roundInv_of_reachableUI s h).1 hgame
  refine ⟨fun ha => ?_, fun ha => ?_, h2, h3⟩
  · rw [ha] at h1
    simp only [Bool.false_eq_true, if_false] at h1
    omega
  · rw [ha] at h1
    simp only [if_true] at h1
    omega

/-- Witness of the amended C8 at the state `startGame` produces from the initial state. -/
theorem counts_identity_witness :
    ReachableUI sampleState ∧ sampleState.screen = .game ∧ sampleState.answered = false ∧
    sampleState.correctAnswers + sampleState.incorrectAnswers =
      sampleState.currentQuestion - 1 :=
  ⟨reachableUI_sampleState, rfl, rfl,
    (counts_identity sampleState reachableUI_sampleState rfl).1 rfl⟩

/-- C9 as stated fails: `nextQuestion` called while question 1 awaits its answer increments
`currentQuestion` to 2 and generates a new question (a second number is recorded), and a
second call increments it again. -/
theorem nextQuestion_unguarded :
    sampleState.answered = false ∧ sampleState.currentQuestion = 1 ∧
    sampleState.usedNumbers = [11] ∧
    (nextQuestion sampleState zeroRng).map (fun r => r.1.currentQuestion) = some 2 ∧
    (nextQuestion sampleState zeroRng).map (fun r => r.1.usedNumbers) = some [11, 12] ∧
    (nextQuestion sampleState zeroRng).map (fun r => r.1.answered) = some false ∧
    ((nextQuestion sampleState zeroRng).bind fun r => nextQuestion r.1 r.2).map
      (fun r => r.1.currentQuestion) = some 3 := by
  decide

theorem nextQuestion_increments (s : GameState) (g : Rng) :
    ∃ s' g', nextQuestion s g = some (s', g') ∧
      s'.currentQuestion = s.currentQuestion + 1 := by
  by_cases hq : s.currentQuestion + 1 ≤ 20
  · obtain ⟨n, used, g', heq, _⟩ := nextQuestion_continue s g hq
    exact ⟨_, g', heq, rfl⟩
  · exact ⟨_, g, nextQuestion_end s g (by omega), by rw [endGame_eq]⟩

theorem clickNext_disabled (s : GameState) (g : Rng) (hb : s.nextBtnDisabled = true) :
    clickNext s g = some (s, g) := by
  unfold clickNext
  simp only [hb, if_true]

theorem clickNextMany_disabled (gs : List Rng) (s : GameState)
    (hb : s.nextBtnDisabled = true) : clickNextMany gs s = some s := by
  induction gs with
  | nil => rfl
  | cons g gs ih => simp only [clickNextMany, clickNext_disabled s g hb, ih]

theorem clickNext_results (s : GameState) (g : Rng) (hr : s.screen = .results) :
    ∃ s' g', clickNext s g = some (s', g') ∧ s'.screen = .results := by
  rcases Bool.eq_false_or_eq_true s.nextBtnDisabled with hb | hb
  · exact ⟨s, g, clickNext_disabled s g hb, hr⟩
  · have hclick : clickNext s g = nextQuestion s g := by
      unfold clickNext
      simp only [hb, Bool.false_eq_true, if_false]
    rw [hclick]
    by_cases hq : s.currentQuestion + 1 ≤ 20
    · obtain ⟨n, used, g', heq, _⟩ := nextQuestion_continue s g hq
      exact ⟨_, g', heq, hr⟩
    · exact ⟨_, g, nextQuestion_end s g (by omega), by rw [endGame_eq]⟩

theorem clickNextMany_results (gs : List Rng) (s : GameState) (hr : s.screen = .results) :
    ∃ s', clickNextMany gs s = some s' ∧ s'.screen = .results := by
  induction gs generalizing s with
  | nil => exact ⟨s, rfl, hr⟩
  | cons g gs ih =>
    obtain ⟨s1, g1, h1, hr1⟩ := clickNext_results s g hr
    obtain ⟨s', h2, hr'⟩ := ih s1 hr1
    exact ⟨s', by simp only [clickNextMany, h1, h2], hr'⟩

theorem clickNextMany_once (gs : List Rng) (s : GameState) (hinv : RoundInv s) :
    ∃ s', clickNextMany gs s = some s' ∧
      (s'.screen = .game →
        s'.currentQuestion ≤ s.currentQuestion + 1 ∧
        (s'.currentQuestion = s.currentQuestion + 1 →
          s.answered = true ∧ s'.answered = false)) := by
  cases gs with
  | nil => exact ⟨s, rfl, fun _ => ⟨Nat.le_succ _, fun h => absurd h (by omega)⟩⟩
  | cons g gs =>
    rcases Bool.eq_false_or_eq_true s.nextBtnDisabled with hb | hb
    · refine ⟨s, clickNextMany_disabled _ s hb, fun _ => ⟨Nat.le_succ _, fun h => ?_⟩⟩
      exact absurd h (by omega)
    · have ha := hinv.2 hb
      have hclick : clickNext s g = nextQuestion s g := by
        unfold clickNext
        simp only [hb, Bool.false_eq_true, if_false]
      by_cases hq : s.currentQuestion + 1 ≤ 20
      · obtain ⟨n, used, g', heq, _⟩ := nextQuestion_continue s g hq
        refine ⟨_, by simp only [clickNextMany, hclick, heq]; exact
          clickNextMany_disabled gs _ rfl, fun _ => ⟨Nat.le_refl _, fun _ => ⟨ha, rfl⟩⟩⟩
      · have hend := nextQuestion_end s g (by omega)
        obtain ⟨s', h2, hr'⟩ := clickNextMany_results gs
          (endGame { s with currentQuestion := s.currentQuestion + 1 }) (by rw [endGame_eq])
        refine ⟨s', by simp only [clickNextMany, hclick, hend, h2], fun hg => ?_⟩
        rw [hr'] at hg
        cases hg

/-- C9, amended: `nextQuestion` itself has no guard: in any state, whatever `answered` is,
it increments `currentQuestion` by one.  The guard is the Next button: in every state reachable
through the page's events in which the current question is unanswered, the button is disabled
and a click on it changes nothing.  Hence, from any reachable state, any number of Next clicks
with no answer or timeout in between increments `currentQuestion` at most once as long as the
game screen is still up afterwards, and only when the question had been answered. -/
theorem next_click_guard (s : GameState) (g : Rng) :
    (∃ s' g', nextQuestion s g = some (s', g') ∧
      s'.currentQuestion = s.currentQuestion + 1) ∧
    (ReachableUI s → s.answered = false →
      s.nextBtnDisabled = true ∧ clickNext s g = some (s, g)) ∧
    (ReachableUI s → ∀ gs : List Rng, ∃ s', clickNextMany gs s = some s' ∧
      (s'.screen = .game →
        s'.currentQuestion ≤ s.currentQuestion + 1 ∧
        (s'.currentQuestion = s.currentQuestion + 1 →
          s.answered = true ∧ s'.answered = false))) := by
  refine ⟨nextQuestion_increments s g, ?_, ?_⟩
  · intro h hs
    have hb : s.nextBtnDisabled = true := by
      rcases Bool.eq_false_or_eq_true s.nextBtnDisabled with hd | hd
      · exact hd
      · have := (roundInv_of_reachableUI s h).2 hd
        rw [hs] at this
        cases this
    exact ⟨hb, clickNext_disabled s g hb⟩
  · intro h gs
    exact clickNextMany_once gs s (roundInv_of_reachableUI s h)

/-- Witness of the amended C9 at the state `startGame` produces from the initial state: the
button is disabled, one click and three clicks in a row change nothing. -/
theorem next_click_guard_witness :
    ReachableUI sampleState ∧ sampleState.answered = false ∧
    clickNext sampleState zeroRng = some (sampleState, zeroRng) ∧
    ∃ s', clickNextMany [zeroRng, zeroRng, zeroRng] sampleState = some s' ∧
      (s'.screen = .game →
        s'.currentQuestion ≤ sampleState.currentQuestion + 1 ∧
        (s'.currentQuestion = sampleState.currentQuestion + 1 →
          sampleState.answered = true ∧ s'.answered = false)) :=
  ⟨reachableUI_sampleState, rfl,
    ((next_click_guard sampleState zeroRng).2.1 reachableUI_sampleState rfl).2,
    (next_click_guard sampleState zeroRng).2.2 reachableUI_sampleState
      [zeroRng, zeroRng, zeroRng]⟩

/-! ## A perfect run -/

theorem perfectScore_bounds (k : Nat) (hk : k ≤ 20) :
    0 ≤ perfectScore k ∧ perfectScore k ≤ 135 * (k : Int) := by
  induction k with
  | zero => exact ⟨Int.le_refl 0, Int.le_refl 0⟩
  | succ k ih =>
    obtain ⟨h1, h2⟩ := ih (by omega)
    show 0 ≤ perfectScore k + (10 + 30 + 5 * (k : Int)) ∧
      perfectScore k + (10 + 30 + 5 * (k : Int)) ≤ 135 * ((k + 1 : Nat) : Int)
    push_cast
    omega

theorem perfectScore_step (k : Nat) (hk : k ≤ 19) :
    doubleInt (perfectScore k + totalPoints 15 k) = perfectScore (k + 1) := by
  obtain ⟨h1, h2⟩ := perfectScore_bounds k (by omega)
  rw [totalPoints_eq 15 k (by decide) (by decide) (by omega),
    doubleInt_of_small _ (by omega)]
  show _ = perfectScore k + (10 + 30 + 5 * (k : Int))
  omega

theorem answerAllCorrectly_spec (ws : List String) (k : Nat) (s : GameState) (g : Rng)
    (hlen : k + ws.length ≤ 20) (hs : AwaitingAfter k s) :
    ∃ s' g', answerAllCorrectly ws s g = some (s', g') ∧
      (k + ws.length < 20 → AwaitingAfter (k + ws.length) s') ∧
      (k + ws.length = 20 → ws ≠ [] → PerfectFinal s') := by
  induction ws generalizing k s g with
  | nil => exact ⟨s, g, rfl, fun _ => hs, fun _ h => absurd rfl h⟩
  | cons w ws ih =>
    obtain ⟨ha, ht, hk, hsc, hc, hi, hq, hg⟩ := hs
    obtain ⟨tips, btn, hst⟩ := handleAnswer_correct_state s g w ha
    rw [List.length_cons] at hlen
    by_cases hlast : k + 1 < 20
    · obtain ⟨n, used, g1, hnext, _⟩ := nextQuestion_continue
        (handleAnswer s w w g).state (handleAnswer s w w g).rng
        (by rw [hst]; show s.currentQuestion + 1 ≤ 20; omega)
      have hnew : AwaitingAfter (k + 1)
          { (handleAnswer s w w g).state with
            currentQuestion := (handleAnswer s w w g).state.currentQuestion + 1,
            usedNumbers := used, currentAnswer := some n, answered := false,
            nextBtnDisabled := true, timeRemaining := 15, timerInterval := true,
            liveTimers := (handleAnswer s w w g).state.liveTimers + 1 } := by
        rw [hst]
        refine ⟨rfl, rfl, ?_, ?_, ?_, hi, ?_, hg⟩
        · show s.streak + 1 = k + 1
          rw [hk]
        · show doubleInt (s.score + totalPoints s.timeRemaining s.streak) =
            perfectScore (k + 1)
          rw [hsc, ht, hk]
          exact perfectScore_step k (by omega)
        · show s.correctAnswers + 1 = k + 1
          rw [hc]
        · show s.currentQuestion + 1 = k + 1 + 1
          rw [hq]
      obtain ⟨s', g', hrun, h1, h2⟩ := ih (k + 1) _ g1 (by omega) hnew
      refine ⟨s', g', ?_, ?_, ?_⟩
      · simp only [answerAllCorrectly, hnext, hrun]
      · intro hlt
        have := h1 (by rw [List.length_cons] at hlt; omega)
        rwa [List.length_cons, show k + (ws.length + 1) = k + 1 + ws.length by omega]
      · intro heq _
        refine h2 (by rw [List.length_cons] at heq; omega) ?_
        intro hnil
        rw [hnil, List.length_cons, List.length_nil] at heq
        omega
    · have hk19 : k = 19 := by omega
      have hws : ws = [] := List.length_eq_zero.mp (by omega)
      subst hws
      have hend := nextQuestion_end (handleAnswer s w w g).state (handleAnswer s w w g).rng
        (by rw [hst]; show 20 < s.currentQuestion + 1; omega)
      refine ⟨endGame { (handleAnswer s w w g).state with
          currentQuestion := (handleAnswer s w w g).state.currentQuestion + 1 },
        (handleAnswer s w w g).rng, ?_, ?_, ?_⟩
      · simp only [answerAllCorrectly, hend]
      · intro hlt
        rw [List.length_cons, List.length_nil] at hlt
        omega
      · intro _ _
        have hscore : doubleInt (s.score + totalPoints s.timeRemaining s.streak) =
            perfectScore 20 := by
          rw [hsc, ht, hk, hk19]
          exact perfectScore_step 19 (by decide)
        rw [endGame_eq, hst]
        refine ⟨rfl, hscore, ?_, hi, ?_, ?_⟩
        · show s.correctAnswers + 1 = 20
          omega
        · show s.currentQuestion + 1 = 21
          omega
        · show some _ = some _
          simp only [hscore, hc, hk19, hi]

theorem awaitingAfter_startGame (s0 : GameState) (g0 : Rng) (s : GameState) (g : Rng)
    (h : startGame s0 g0 = some (s, g)) : AwaitingAfter 0 s := by
  obtain ⟨n, used, g1, heq, _⟩ := startGame_spec s0 g0
  rw [heq] at h
  cases h
  exact ⟨rfl, rfl, rfl, rfl, rfl, rfl, rfl, rfl⟩

theorem perfectScore_twenty : perfectScore 20 = 1750 := by decide

theorem accuracyPercent_eq (c : Nat) : accuracyPercent c = 5 * c := by
  show (2 * (c * 100) + 20) / (2 * 20) = 5 * c
  omega

theorem accuracyPercent_eq_floor (c : Nat) :
    (accuracyPercent c : ℤ) = ⌊(c : ℚ) / 20 * 100 + 1 / 2⌋ := by
  rw [accuracyPercent_eq]
  symm
  rw [Int.floor_eq_iff]
  push_cast
  constructor
  · linarith [show (0 : ℚ) ≤ (c : ℚ) from Nat.cast_nonneg c]
  · linarith [show (0 : ℚ) ≤ (c : ℚ) from Nat.cast_nonneg c]

/-- C10: from any state, `startGame` followed by 20 rounds of a correct `handleAnswer` (made
with the countdown still at 15) and `nextQuestion` always runs to the end: the game ends on
the 20th `nextQuestion` and not before, with `correctAnswers = 20`, `incorrectAnswers = 0`,
accuracy `round(20 / 20 * 100) = 100` and `score = Σ_{i<20} (10 + 30 + 5 i) = 1750`. -/
theorem perfect_game (s0 : GameState) (g0 : Rng) (ws : List String) (hlen : ws.length = 20) :
    (∃ s g, (startGame s0 g0).bind (fun r => answerAllCorrectly ws r.1 r.2) = some (s, g) ∧
      s.screen = .results ∧ s.correctAnswers = 20 ∧ s.incorrectAnswers = 0 ∧
      s.score = 1750 ∧ s.score = ∑ i ∈ Finset.range 20, (10 + 30 + 5 * (i : ℤ)) ∧
      s.results.map (fun r => r.finalAccuracy) = some 100 ∧
      s.results.map (fun r => r.finalScore) = some 1750) ∧
    (accuracyPercent 20 : ℤ) = ⌊((20 : ℕ) : ℚ) / 20 * 100 + 1 / 2⌋ ∧
    ∀ j, j < 20 →
      ∃ s g, (startGame s0 g0).bind
          (fun r => answerAllCorrectly (ws.take j) r.1 r.2) = some (s, g) ∧
        s.screen = .game ∧ s.answered = false ∧ s.timeRemaining = 15 ∧
        s.currentQuestion = j + 1 ∧ s.correctAnswers = j ∧ s.streak = j := by
  obtain ⟨n, used, g1, hstart, _⟩ := startGame_spec s0 g0
  have h0 := awaitingAfter_startGame s0 g0 _ g1 hstart
  refine ⟨?_, accuracyPercent_eq_floor 20, ?_⟩
  · obtain ⟨s, g, hrun, _, hfin⟩ :=
      answerAllCorrectly_spec ws 0 _ g1 (by omega) h0
    obtain ⟨f1, f2, f3, f4, _, f6⟩ := hfin (by omega) (by
      intro hnil
      rw [hnil] at hlen
      cases hlen)
    refine ⟨s, g, by rw [hstart]; exact hrun, f1, f3, f4, by rw [f2]; decide, ?_, ?_, ?_⟩
    · rw [f2]
      decide
    · rw [f6]
      decide
    · rw [f6]
      decide
  · intro j hj
    obtain ⟨s, g, hrun, hmid, _⟩ :=
      answerAllCorrectly_spec (ws.take j) 0 _ g1 (by rw [List.length_take]; omega) h0
    have hl : (ws.take j).length = j := by rw [List.length_take]; omega
    obtain ⟨a1, a2, a3, _, a5, _, a7, a8⟩ := hmid (by omega)
    rw [hl, Nat.zero_add] at a3 a5 a7
    exact ⟨s, g, by rw [hstart]; exact hrun, a8, a1, a2, a7, a5, a3⟩

/-- Witness of C10: the run from the initial state on the all-zero stream. -/
theorem perfect_game_witness :
    (List.replicate 20 "eleven").length = 20 ∧
    ∃ s g, (startGame initialState zeroRng).bind
        (fun r => answerAllCorrectly (List.replicate 20 "eleven") r.1 r.2) = some (s, g) ∧
      s.screen = .results ∧ s.correctAnswers = 20 ∧ s.incorrectAnswers = 0 ∧
      s.score = 1750 ∧ s.score = ∑ i ∈ Finset.range 20, (10 + 30 + 5 * (i : ℤ)) ∧
      s.results.map (fun r => r.finalAccuracy) = some 100 ∧
      s.results.map (fun r => r.finalScore) = some 1750 :=
  ⟨rfl, (perfect_game initialState zeroRng (List.replicate 20 "eleven") rfl).1⟩

/-! ## How the generators use `getNextNumber` -/

theorem generateNumberRecognition_next (s : GameState) (g : Rng) (q : Question)
    (s' : GameState) (g' : Rng) (h : generateNumberRecognition s g = some (q, s', g')) :
    ∃ g1, getNextNumber s g = some (q.number, s', g1) := by
  unfold generateNumberRecognition at h
  cases hn : getNextNumber s g with
  | none => rw [hn] at h; cases h
  | some r =>
    obtain ⟨n, s1, g1⟩ := r
    rw [hn] at h
    simp only [Option.bind_eq_bind, Option.some_bind, Option.bind_eq_some] at h
    obtain ⟨w, _, r2, _, h2⟩ := h
    cases h2
    exact ⟨g1, rfl⟩

theorem generateCountingObjects_next (s : GameState) (g : Rng) (q : Question)
    (s' : GameState) (g' : Rng) (h : generateCountingObjects s g = some (q, s', g')) :
    ∃ g1, getNextNumber s g = some (q.number, s', g1) := by
  unfold generateCountingObjects at h
  cases hn : getNextNumber s g with
  | none => rw [hn] at h; cases h
  | some r =>
    obtain ⟨n, s1, g1⟩ := r
    rw [hn] at h
    simp only [Option.bind_eq_bind, Option.some_bind, Option.bind_eq_some] at h
    obtain ⟨w, _, r2, _, obj, _, h2⟩ := h
    cases h2
    exact ⟨g1, rfl⟩

theorem generateAddition_next (s : GameState) (g : Rng) (q : Question)
    (s' : GameState) (g' : Rng) (h : generateAddition s g = some (q, s', g')) :
    ∃ g1, getNextNumber s g = some (q.number, s', g1) := by
  unfold generateAddition at h
  cases hn : getNextNumber s g with
  | none => rw [hn] at h; cases h
  | some r =>
    obtain ⟨n, s1, g1⟩ := r
    rw [hn] at h
    simp only [Option.bind_eq_bind, Option.some_bind, Option.bind_eq_some] at h
    obtain ⟨problems, _, p, _, w, _, r2, _, h2⟩ := h
    cases h2
    exact ⟨g1, rfl⟩

theorem generateSpellingCheck_next (s : GameState) (g : Rng) (q : Question)
    (s' : GameState) (g' : Rng) (h : generateSpellingCheck s g = some (q, s', g')) :
    ∃ g1, getNextNumber s g = some (q.number, s', g1) := by
  unfold generateSpellingCheck at h
  cases hn : getNextNumber s g with
  | none => rw [hn] at h; cases h
  | some r =>
    obtain ⟨n, s1, g1⟩ := r
    rw [hn] at h
    simp only [Option.bind_eq_bind, Option.some_bind, Option.bind_eq_some] at h
    obtain ⟨w, _, known, _, h2⟩ := h
    cases h2
    exact ⟨g1, rfl⟩

theorem generator_next (gen : GameState → Rng → Option (Question × GameState × Rng))
    (hgen : gen ∈ generators) (s : GameState) (g : Rng) (q : Question) (s' : GameState)
    (g' : Rng) (h : gen s g = some (q, s', g')) :
    ∃ g1, getNextNumber s g = some (q.number, s', g1) := by
  simp only [generators, List.mem_cons, List.mem_singleton, List.not_mem_nil, or_false] at hgen
  rcases hgen with h1 | h1 | h1 | h1 <;> subst h1
  · exact generateNumberRecognition_next s g q s' g' h
  · exact generateCountingObjects_next s g q s' g' h
  · exact generateAddition_next s g q s' g' h
  · exact generateSpellingCheck_next s g q s' g' h

theorem displayQuestion_next (s : GameState) (g : Rng) :
    ∃ n s1 g1 g', getNextNumber s (getRandomQuestionType g).2 = some (n, s1, g1) ∧
      displayQuestion s g = some
        ({ s1 with currentAnswer := some n, answered := false, nextBtnDisabled := true,
                   timeRemaining := 15, timerInterval := true,
                   liveTimers := s1.liveTimers + 1 }, g') := by
  obtain ⟨gen, hmem, hpick⟩ := getRandomElement_eq generators g (List.cons_ne_nil _ _)
  obtain ⟨q, used, g', hq, _⟩ := generator_spec gen hmem s (getRandomElement generators g).2
  obtain ⟨g1, hnext⟩ := generator_next gen hmem s _ q _ g' hq
  refine ⟨q.number, _, g1, g', hnext, ?_⟩
  unfold displayQuestion getRandomQuestionType
  rw [hpick]
  simp only [Option.bind_eq_bind, Option.some_bind, hq]
  rfl

theorem getNextNumber_of_nil (s : GameState) (g : Rng) (n : Nat) (s1 : GameState) (g1 : Rng)
    (hs : s.usedNumbers = []) (h : getNextNumber s g = some (n, s1, g1)) :
    s1 = { s with usedNumbers := [n] } ∧ (11 ≤ n ∧ n ≤ 19) ∧
      (getRandomElement getAllTeenNumbers g).1 = some n := by
  have hfilter : getAllTeenNumbers.filter (fun n => !s.usedNumbers.contains n) =
      getAllTeenNumbers := by rw [hs]; decide
  have hlen : getAllTeenNumbers.length > 0 := by decide
  unfold getNextNumber at h
  simp only [hfilter, hlen, if_true] at h
  obtain ⟨x, hx, hpick⟩ := getRandomElement_eq getAllTeenNumbers g (by decide)
  rw [hpick] at h
  simp only [Option.some.injEq, Prod.mk.injEq] at h
  obtain ⟨h1, h2, _⟩ := h
  subst h1
  refine ⟨?_, (mem_getAllTeenNumbers x).mp hx, by rw [hpick]⟩
  rw [← h2, hs]
  rfl

theorem getNextNumber_bounded (s : GameState) (g : Rng) (n : Nat) (s1 : GameState) (g1 : Rng)
    (hlen : s.usedNumbers.length ≤ 6) (h : getNextNumber s g = some (n, s1, g1)) :
    s1 = { s with usedNumbers := pushBounded s.usedNumbers n CONFIG.minUniqueBeforeRepeat } ∧
      (11 ≤ n ∧ n ≤ 19) ∧ n ∉ s.usedNumbers ∧ s1.usedNumbers.length ≤ 6 := by
  obtain ⟨n0, g0, heq, hmem, hnot⟩ := getNextNumber_available s g (exists_unused _ hlen)
  rw [heq] at h
  simp only [Option.some.injEq, Prod.mk.injEq] at h
  obtain ⟨h1, h2, _⟩ := h
  subst h1
  refine ⟨h2.symm, (mem_getAllTeenNumbers n0).mp hmem, hnot, ?_⟩
  rw [← h2]
  exact pushBounded_length_le _ _ _ hlen

/-! ## The session invariant -/

theorem startGame_exact (s : GameState) (g : Rng) :
    ∃ n g', startGame s g = some
        ({ s with currentQuestion := 1, score := 0, streak := 0, correctAnswers := 0,
                  incorrectAnswers := 0, usedTips := [], screen := .game,
                  usedNumbers := [n], currentAnswer := some n, answered := false,
                  nextBtnDisabled := true, timeRemaining := 15, timerInterval := true,
                  liveTimers := s.liveTimers + 1 }, g') ∧
      (11 ≤ n ∧ n ≤ 19) ∧
      (getRandomElement getAllTeenNumbers (getRandomQuestionType g).2).1 = some n := by
  obtain ⟨n, s1, g1, g', hnext, hd⟩ := displayQuestion_next
    (showScreen { s with currentQuestion := 1, score := 0, streak := 0, correctAnswers := 0,
                         incorrectAnswers := 0, usedNumbers := [], usedTips := [],
                         answered := false } .game) g
  obtain ⟨hs1, hn, hpick⟩ := getNextNumber_of_nil _ _ n s1 g1 rfl hnext
  refine ⟨n, g', ?_, hn, hpick⟩
  unfold startGame
  rw [hd, hs1]
  rfl

theorem nextQuestion_continue_exact (s : GameState) (g : Rng)
    (h : s.currentQuestion + 1 ≤ 20) (hlen : s.usedNumbers.length ≤ 6) :
    ∃ n g', nextQuestion s g = some
        ({ s with currentQuestion := s.currentQuestion + 1,
                  usedNumbers := pushBounded s.usedNumbers n CONFIG.minUniqueBeforeRepeat,
                  currentAnswer := some n, answered := false, nextBtnDisabled := true,
                  timeRemaining := 15, timerInterval := true,
                  liveTimers := s.liveTimers + 1 }, g') ∧
      (11 ≤ n ∧ n ≤ 19) ∧ n ∉ s.usedNumbers := by
  obtain ⟨n, s1, g1, g', hnext, hd⟩ :=
    displayQuestion_next { s with currentQuestion := s.currentQuestion + 1 } g
  obtain ⟨hs1, hn, hnot, _⟩ := getNextNumber_bounded
    { s with currentQuestion := s.currentQuestion + 1 } _ n s1 g1 hlen hnext
  refine ⟨n, g', ?_, hn, hnot⟩
  unfold nextQuestion
  have hnot20 : ¬ (s.currentQuestion + 1 > CONFIG.totalQuestions) := by
    show ¬ (s.currentQuestion + 1 > 20)
    omega
  simp only [hnot20, if_false]
  rw [hd, hs1]

theorem sessionInv_startGame (s0 : GameState) (g : Rng) (s : GameState) (g' : Rng)
    (h : startGame s0 g = some (s, g')) : SessionInv s := by
  obtain ⟨n, g1, heq, _, _⟩ := startGame_exact s0 g
  rw [heq] at h
  cases h
  exact
    { score_nonneg := Int.le_refl 0
      time_pos := fun _ => (by show (1 : Int) ≤ 15; decide)
      time_le := fun _ => Int.le_refl 15
      used_le := (by show 1 ≤ 6; decide)
      streak_le := Nat.le_refl 0
      score_le := Int.le_refl 0
      opened_le := (by show 0 + 0 + 1 ≤ 20; decide)
      opened_le_question := (by show 0 + 0 + 1 ≤ 1; decide) }

theorem questionsOpened_unanswered (s : GameState) (hs : s.answered = false) :
    questionsOpened s = s.correctAnswers + s.incorrectAnswers + 1 := by
  unfold questionsOpened
  rw [hs]
  rfl

theorem questionsOpened_answered (s : GameState) (hs : s.answered = true) :
    questionsOpened s = s.correctAnswers + s.incorrectAnswers := by
  unfold questionsOpened
  rw [hs]
  rfl

theorem sessionInv_wrong (s s' : GameState) (hinv : SessionInv s) (hs : s.answered = false)
    (ha : s'.answered = true) (hsc : s'.score = s.score)
    (hu : s'.usedNumbers = s.usedNumbers) (hc : s'.correctAnswers = s.correctAnswers)
    (hi : s'.incorrectAnswers = s.incorrectAnswers + 1) (hk : s'.streak = 0)
    (hq : s'.currentQuestion = s.currentQuestion) : s.score ≤ s'.score ∧ SessionInv s' := by
  have h20 := hinv.opened_le
  have hcq := hinv.opened_le_question
  rw [questionsOpened_unanswered s hs] at h20 hcq
  refine ⟨by rw [hsc], ?_⟩
  exact
    { score_nonneg := by rw [hsc]; exact hinv.score_nonneg
      time_pos := fun hf => by rw [ha] at hf; cases hf
      time_le := fun hf => by rw [ha] at hf; cases hf
      used_le := by rw [hu]; exact hinv.used_le
      streak_le := by rw [hk]; exact Nat.zero_le _
      score_le := by rw [hsc, hc]; exact hinv.score_le
      opened_le := by rw [questionsOpened_answered s' ha, hc, hi]; omega
      opened_le_question := by rw [questionsOpened_answered s' ha, hc, hi, hq]; omega }

theorem sessionInv_correct_score (s : GameState) (hinv : SessionInv s)
    (hs : s.answered = false) :
    totalPoints s.timeRemaining s.streak = 10 + 2 * s.timeRemaining + 5 * s.streak ∧
      doubleInt (s.score + totalPoints s.timeRemaining s.streak) =
        s.score + totalPoints s.timeRemaining s.streak ∧
      s.streak ≤ 19 ∧ s.correctAnswers ≤ 19 := by
  have h1 := hinv.time_pos hs
  have h2 := hinv.time_le hs
  have h20 := hinv.opened_le
  rw [questionsOpened_unanswered s hs] at h20
  have hk := hinv.streak_le
  have h0 := hinv.score_nonneg
  have hle := hinv.score_le
  have htp := totalPoints_eq s.timeRemaining s.streak (by omega) (by omega) (by omega)
  refine ⟨htp, ?_, by omega, by omega⟩
  rw [htp]
  exact doubleInt_of_small _ (by omega)

theorem sessionInv_correct (s s' : GameState) (hinv : SessionInv s) (hs : s.answered = false)
    (ha : s'.answered = true)
    (hsc : s'.score = doubleInt (s.score + totalPoints s.timeRemaining s.streak))
    (hu : s'.usedNumbers = s.usedNumbers) (hc : s'.correctAnswers = s.correctAnswers + 1)
    (hi : s'.incorrectAnswers = s.incorrectAnswers) (hk : s'.streak = s.streak + 1)
    (hq : s'.currentQuestion = s.currentQuestion) : s.score ≤ s'.score ∧ SessionInv s' := by
  obtain ⟨htp, hexact, hk19, hc19⟩ := sessionInv_correct_score s hinv hs
  have h1 := hinv.time_pos hs
  have h2 := hinv.time_le hs
  have h20 := hinv.opened_le
  have hcq := hinv.opened_le_question
  rw [questionsOpened_unanswered s hs] at h20 hcq
  have hstreak := hinv.streak_le
  have h0 := hinv.score_nonneg
  have hle := hinv.score_le
  rw [hexact, htp] at hsc
  refine ⟨by rw [hsc]; omega, ?_⟩
  exact
    { score_nonneg := by rw [hsc]; omega
      time_pos := fun hf => by rw [ha] at hf; cases hf
      time_le := fun hf => by rw [ha] at hf; cases hf
      used_le := by rw [hu]; exact hinv.used_le
      streak_le := by rw [hk, hc]; omega
      score_le := by rw [hsc, hc]; push_cast; omega
      opened_le := by rw [questionsOpened_answered s' ha, hc, hi]; omega
      opened_le_question := by rw [questionsOpened_answered s' ha, hc, hi, hq]; omega }

theorem sessionInv_handleAnswer (s : GameState) (selected correct : String) (g : Rng)
    (hinv : SessionInv s) :
    s.score ≤ (handleAnswer s selected correct g).state.score ∧
      SessionInv (handleAnswer s selected correct g).state := by
  rcases Bool.eq_false_or_eq_true s.answered with hs | hs
  · rw [handleAnswer_answered s g selected correct hs]
    exact ⟨Int.le_refl _, hinv⟩
  · by_cases h : selected = correct
    · subst h
      obtain ⟨tips, btn, hst⟩ := handleAnswer_correct_state s g selected hs
      rw [hst]
      exact sessionInv_correct s _ hinv hs rfl rfl rfl rfl rfl rfl rfl
    · obtain ⟨tips, btn, hst⟩ := handleAnswer_wrong_state s g selected correct hs h
      rw [hst]
      exact sessionInv_wrong s _ hinv hs rfl rfl rfl rfl rfl rfl rfl

theorem sessionInv_handleTimeout (s : GameState) (g : Rng) (hinv : SessionInv s) :
    s.score ≤ (handleTimeout s g).state.score ∧ SessionInv (handleTimeout s g).state := by
  rw [handleTimeout_eq_wrong s g "a" "b" (by decide)]
  exact sessionInv_handleAnswer s "a" "b" g hinv

theorem sessionInv_setTime (s : GameState) (t : Int) (hinv : SessionInv s)
    (ht : s.answered = false → 1 ≤ t ∧ t ≤ 15) :
    SessionInv { s with timeRemaining := t } :=
  { score_nonneg := hinv.score_nonneg
    time_pos := fun hf => (ht hf).1
    time_le := fun hf => (ht hf).2
    used_le := hinv.used_le
    streak_le := hinv.streak_le
    score_le := hinv.score_le
    opened_le := hinv.opened_le
    opened_le_question := hinv.opened_le_question }

theorem sessionInv_timerTick (s : GameState) (g : Rng) (hinv : SessionInv s) :
    s.score ≤ (timerTick s g).state.score ∧ SessionInv (timerTick s g).state := by
  unfold timerTick
  simp only
  split
  · rename_i hle
    rcases Bool.eq_false_or_eq_true s.answered with hs | hs
    · rw [handleTimeout_answered { s with timeRemaining := s.timeRemaining - 1 } g hs]
      refine ⟨Int.le_refl _, sessionInv_setTime s _ hinv ?_⟩
      intro hf
      rw [hs] at hf
      cases hf
    · obtain ⟨tips, btn, hst⟩ :=
        handleTimeout_state { s with timeRemaining := s.timeRemaining - 1 } g hs
      rw [hst]
      exact sessionInv_wrong s _ hinv hs rfl rfl rfl rfl rfl rfl rfl
  · rename_i hgt
    refine ⟨Int.le_refl _, sessionInv_setTime s _ hinv ?_⟩
    intro hf
    have h2 := hinv.time_le hf
    have : ¬ (s.timeRemaining - 1 ≤ 0) := hgt
    omega

theorem sessionInv_nextQuestion (s : GameState) (g : Rng) (s' : GameState) (g' : Rng)
    (hinv : SessionInv s) (h : nextQuestion s g = some (s', g')) :
    s.score ≤ s'.score ∧ SessionInv s' := by
  have h20 := hinv.opened_le
  have hcq := hinv.opened_le_question
  by_cases hq : s.currentQuestion + 1 ≤ 20
  · obtain ⟨n, g1, heq, _, _⟩ := nextQuestion_continue_exact s g hq hinv.used_le
    rw [heq] at h
    cases h
    refine ⟨Int.le_refl _, ?_⟩
    have hopen : s.correctAnswers + s.incorrectAnswers ≤ s.currentQuestion := by
      unfold questionsOpened at hcq
      omega
    exact
      { score_nonneg := hinv.score_nonneg
        time_pos := fun _ => (by show (1 : Int) ≤ 15; decide)
        time_le := fun _ => Int.le_refl 15
        used_le := pushBounded_length_le _ _ _ hinv.used_le
        streak_le := hinv.streak_le
        score_le := hinv.score_le
        opened_le := (by
          show s.correctAnswers + s.incorrectAnswers + 1 ≤ 20
          omega)
        opened_le_question := (by
          show s.correctAnswers + s.incorrectAnswers + 1 ≤ s.currentQuestion + 1
          omega) }
  · rw [nextQuestion_end s g (by omega), endGame_eq] at h
    cases h
    refine ⟨Int.le_refl _, ?_⟩
    exact
      { score_nonneg := hinv.score_nonneg
        time_pos := hinv.time_pos
        time_le := hinv.time_le
        used_le := hinv.used_le
        streak_le := hinv.streak_le
        score_le := hinv.score_le
        opened_le := h20
        opened_le_question := Nat.le_trans hcq (Nat.le_succ _) }

theorem sessionInv_step (s s' : GameState) (hinv : SessionInv s) (hstep : SessionStep s s') :
    s.score ≤ s'.score ∧ SessionInv s' := by
  cases hstep with
  | tick g => exact sessionInv_timerTick s g hinv
  | answer selected correct g => exact sessionInv_handleAnswer s selected correct g hinv
  | timeout g => exact sessionInv_handleTimeout s g hinv
  | next g _ g1 hnext => exact sessionInv_nextQuestion s g s' g1 hinv hnext

theorem sessionInv_of_inSession (s : GameState) (h : InSession s) : SessionInv s := by
  induction h with
  | start s0 g s g' hstart => exact sessionInv_startGame s0 g s g' hstart
  | step s s' _ hstep ih => exact (sessionInv_step s s' ih hstep).2

theorem inSession_sampleState : InSession sampleState := by
  obtain ⟨r, hr, hfst⟩ := Option.map_eq_some'.mp startGame_initial
  exact InSession.start initialState zeroRng sampleState r.2 (by rw [hr, ← hfst])

/-- C11: in every state of a session begun with `startGame`, the score is not negative and
no transition (timer tick, `handleAnswer` with any selection, `handleTimeout`,
`nextQuestion`) decreases it; while a question is unanswered `timeRemaining` is at least 1,
so a correct answer adds `totalPoints`, which is not negative. -/
theorem score_never_decreases (s : GameState) (h : InSession s) :
    0 ≤ s.score ∧
    (∀ s', SessionStep s s' → s.score ≤ s'.score ∧ 0 ≤ s'.score) ∧
    (s.answered = false →
      0 ≤ s.timeRemaining ∧
      ∀ (w : String) (g : Rng),
        (handleAnswer s w w g).state.score = s.score + totalPoints s.timeRemaining s.streak ∧
        0 ≤ totalPoints s.timeRemaining s.streak) := by
  have hinv := sessionInv_of_inSession s h
  refine ⟨hinv.score_nonneg, ?_, ?_⟩
  · intro s' hstep
    obtain ⟨h1, h2⟩ := sessionInv_step s s' hinv hstep
    exact ⟨h1, h2.score_nonneg⟩
  · intro ha
    have ht := hinv.time_pos ha
    refine ⟨by omega, ?_⟩
    intro w g
    obtain ⟨tips, btn, hst⟩ := handleAnswer_correct_state s g w ha
    obtain ⟨htp, hexact, _, _⟩ := sessionInv_correct_score s hinv ha
    rw [hst]
    refine ⟨hexact, ?_⟩
    rw [htp]
    omega

/-- Witness of C11 at the state `startGame` produces from the initial state. -/
theorem score_never_decreases_witness :
    InSession sampleState ∧ 0 ≤ sampleState.score ∧
    sampleState.score ≤ (timerTick sampleState zeroRng).state.score :=
  ⟨inSession_sampleState, (score_never_decreases sampleState inSession_sampleState).1,
    ((score_never_decreases sampleState inSession_sampleState).2.1 _
      (SessionStep.tick sampleState zeroRng)).1⟩

/-- C12: for a teen number `n`, `ADDITION_PROBLEMS[n]` is a non-empty list whose pairs all
sum to `n`; and in every state, for every random stream, `generateAddition` returns a question
showing two operands that sum to the question's `number`, whose word is `correctAnswer`. -/
theorem addition_operands_sum (n : Nat) (s : GameState) (g : Rng)
    (hn : 11 ≤ n ∧ n ≤ 19) :
    (∃ problems, ADDITION_PROBLEMS.lookup n = some problems ∧ problems ≠ [] ∧
      ∀ p ∈ problems, p.1 + p.2 = n) ∧
    ∃ q s' g' a b, generateAddition s g = some (q, s', g') ∧ q.display = .math a b ∧
      a + b = q.number ∧ teenWord q.number = some q.correctAnswer := by
  refine ⟨additionProblems_spec n ((mem_getAllTeenNumbers n).mpr hn), ?_⟩
  obtain ⟨q, used, g', hq, hwf, a, b, hd, hsum⟩ := generateAddition_spec s g
  exact ⟨q, _, g', a, b, hq, hd, hsum, hwf.2.2.2.2⟩

/-- Witness of C12 at `n = 13`, the sample state and the all-zero stream. -/
theorem addition_operands_sum_witness :
    (11 ≤ 13 ∧ 13 ≤ 19) ∧
    (∃ problems, ADDITION_PROBLEMS.lookup 13 = some problems ∧ problems ≠ [] ∧
      ∀ p ∈ problems, p.1 + p.2 = 13) ∧
    ∃ q s' g' a b, generateAddition sampleState zeroRng = some (q, s', g') ∧
      q.display = .math a b ∧ a + b = q.number ∧ teenWord q.number = some q.correctAnswer :=
  ⟨by decide, addition_operands_sum 13 sampleState zeroRng (by decide)⟩

/-- C13: from any prior state `startGame` returns a state with `currentQuestion = 1`,
`score = 0`, `streak = 0`, both counters 0, `answered = false`, `usedTips` empty,
`timeRemaining = 15` and `usedNumbers = [n]` for the number `n` of the question just
generated, which the random stream alone determines; started from any other prior state
with the same stream, all these fields come out the same. -/
theorem startGame_resets (s0 : GameState) (g : Rng) :
    ∃ n s g', startGame s0 g = some (s, g') ∧
      s.currentQuestion = 1 ∧ s.score = 0 ∧ s.streak = 0 ∧ s.correctAnswers = 0 ∧
      s.incorrectAnswers = 0 ∧ s.answered = false ∧ s.usedTips = [] ∧
      s.timeRemaining = (CONFIG.timePerQuestion : Int) ∧ s.timeRemaining = 15 ∧
      s.usedNumbers = [n] ∧ s.currentAnswer = some n ∧ (11 ≤ n ∧ n ≤ 19) ∧
      (getRandomElement getAllTeenNumbers (getRandomQuestionType g).2).1 = some n ∧
      ∀ t0 : GameState, ∃ t g'', startGame t0 g = some (t, g'') ∧
        t.currentQuestion = s.currentQuestion ∧ t.score = s.score ∧ t.streak = s.streak ∧
        t.correctAnswers = s.correctAnswers ∧ t.incorrectAnswers = s.incorrectAnswers ∧
        t.answered = s.answered ∧ t.usedTips = s.usedTips ∧
        t.timeRemaining = s.timeRemaining ∧ t.usedNumbers = s.usedNumbers ∧
        t.currentAnswer = s.currentAnswer := by
  obtain ⟨n, g', heq, hn, hpick⟩ := startGame_exact s0 g
  refine ⟨n, _, g', heq, rfl, rfl, rfl, rfl, rfl, rfl, rfl, rfl, rfl, rfl, rfl, hn, hpick, ?_⟩
  intro t0
  obtain ⟨m, g'', heq', _, hpick'⟩ := startGame_exact t0 g
  have hmn : m = n := Option.some.inj (hpick'.symm.trans hpick)
  subst hmn
  exact ⟨_, g'', heq', rfl, rfl, rfl, rfl, rfl, rfl, rfl, rfl, rfl, rfl⟩

/-! ## The reset branch of `getNextNumber` -/

theorem available_length (used : List Nat) (h : used.length ≤ 6) :
    3 ≤ (getAllTeenNumbers.filter fun n => !used.contains n).length := by
  have hsplit := List.length_eq_length_filter_add (l := getAllTeenNumbers)
    (fun n => used.contains n)
  have h9 : getAllTeenNumbers.length = 9 := rfl
  have hsub : (getAllTeenNumbers.filter fun n => used.contains n) ⊆ used := by
    intro m hm
    have := (List.mem_filter.mp hm).2
    simpa using this
  have hle := ((getAllTeenNumbers_nodup.filter _).subperm hsub).length_le
  omega

/-- C15: whenever `usedNumbers` has at most 6 entries, at least 3 teen numbers are absent
from it, so `getNextNumber` takes the first branch: it returns a number of 11..19 that is not
in `usedNumbers` and pushes it without clearing the list.  Every state of a session has at most
6 entries in `usedNumbers`; and from the empty list `startGame` leaves, every value returned
differs from the 6 returned before it. -/
theorem reset_branch_never_taken (s : GameState) (g : Rng) (hlen : s.usedNumbers.length ≤ 6) :
    3 ≤ (getAllTeenNumbers.filter fun n => !s.usedNumbers.contains n).length ∧
    (∃ n g', getNextNumber s g = some (n,
        { s with usedNumbers :=
            if (s.usedNumbers ++ [n]).length > 6 then (s.usedNumbers ++ [n]).drop 1
            else s.usedNumbers ++ [n] }, g') ∧
      (11 ≤ n ∧ n ≤ 19) ∧ n ∉ s.usedNumbers) ∧
    (∀ t, InSession t → t.usedNumbers.length ≤ 6) ∧
    ∀ (gs : List Rng) (t : GameState), t.usedNumbers = [] →
      ∃ outs t', getNextNumbers gs t = some (outs, t') ∧ outs.length = gs.length ∧
        ∀ k, ((outs.drop k).take 7).Nodup := by
  refine ⟨available_length _ hlen, ?_, ?_, ?_⟩
  · obtain ⟨n, g', heq, hmem, hnot⟩ := getNextNumber_available s g (exists_unused _ hlen)
    exact ⟨n, g', heq, (mem_getAllTeenNumbers n).mp hmem, hnot⟩
  · intro t ht
    exact (sessionInv_of_inSession t ht).used_le
  · intro gs t ht
    obtain ⟨outs, t', hrun, hl, hw⟩ :=
      getNextNumbers_windows gs t (by rw [ht]; exact List.nodup_nil) (by rw [ht]; decide)
    refine ⟨outs, t', hrun, hl, ?_⟩
    intro k
    have := hw k
    rwa [ht, List.nil_append] at this

/-- Witness of C15 at the state `startGame` produces from the initial state. -/
theorem reset_branch_never_taken_witness :
    sampleState.usedNumbers.length ≤ 6 ∧
    3 ≤ (getAllTeenNumbers.filter fun n => !sampleState.usedNumbers.contains n).length ∧
    ∃ n g', getNextNumber sampleState zeroRng = some (n,
        { sampleState with usedNumbers :=
            if (sampleState.usedNumbers ++ [n]).length > 6
            then (sampleState.usedNumbers ++ [n]).drop 1
            else sampleState.usedNumbers ++ [n] }, g') ∧
      (11 ≤ n ∧ n ≤ 19) ∧ n ∉ sampleState.usedNumbers :=
  ⟨by decide, (reset_branch_never_taken sampleState zeroRng (by decide)).1,
    (reset_branch_never_taken sampleState zeroRng (by decide)).2.1⟩

/-! ## Learning tips -/

theorem teenEntry_of_mem (num : Nat) (h : num ∈ getAllTeenNumbers) :
    ∃ entry, teenEntry num = some entry ∧ entry.tip ∉ GENERAL_TIPS := by
  rw [getAllTeenNumbers_eq] at h
  simp only [List.mem_cons, List.mem_singleton, List.not_mem_nil, or_false] at h
  rcases h with h | h | h | h | h | h | h | h | h <;> subst h <;>
    exact ⟨_, rfl, by decide⟩

theorem getTip_cases (s : GameState) (num : Nat) (g : Rng) (hnum : num ∈ getAllTeenNumbers) :
    ∃ tip s' g', getTip s (some num) g = some (tip, s', g') ∧
      (((teenEntry num).map (fun e => e.tip) = some tip ∧ tip ∉ GENERAL_TIPS ∧ s' = s) ∨
       (tip ∈ GENERAL_TIPS ∧ tip ∉ s.usedTips ∧
         s' = { s with usedTips := pushBounded s.usedTips tip 4 })) := by
  obtain ⟨entry, he, hnot⟩ := teenEntry_of_mem num hnum
  unfold getTip
  simp only [Option.some_bind, he]
  split
  · exact ⟨entry.tip, s, _, rfl, Or.inl ⟨rfl, hnot, rfl⟩⟩
  · rename_i hcond
    simp only [Bool.or_eq_true, decide_eq_true_eq, beq_iff_eq, not_or] at hcond
    have hne : GENERAL_TIPS.filter (fun t => !s.usedTips.contains t) ≠ [] := by
      intro hnil
      exact hcond.2 (by rw [hnil]; rfl)
    obtain ⟨tip, hmem, hpick⟩ := getRandomElement_eq _ (mathRandom g).2 hne
    rw [hpick]
    have h1 := List.mem_filter.mp hmem
    exact ⟨tip, _, _, rfl, Or.inr ⟨h1.1, by simpa using h1.2, rfl⟩⟩

theorem pushBounded_nodup_of_not_mem {α : Type} (used : List α) (x : α) (cap : Nat)
    (hnd : used.Nodup) (hx : x ∉ used) : (pushBounded used x cap).Nodup := by
  have hall : (used ++ [x]).Nodup := by
    rw [List.nodup_append]
    refine ⟨hnd, List.nodup_singleton x, ?_⟩
    intro a ha hb
    rw [List.mem_singleton] at hb
    exact hx (hb ▸ ha)
  show (if (used ++ [x]).length > cap then (used ++ [x]).drop 1 else used ++ [x]).Nodup
  split
  · exact hall.sublist (List.drop_sublist _ _)
  · exact hall

theorem windows_push {α : Type} (used : List α) (x : α) (outs : List α) (cap : Nat)
    (hcap : 0 < cap) (hnd : used.Nodup) (hlen : used.length ≤ cap) (hx : x ∉ used)
    (ih : ∀ k, (((pushBounded used x cap ++ outs).drop k).take (cap + 1)).Nodup) :
    ∀ k, (((used ++ x :: outs).drop k).take (cap + 1)).Nodup := by
  have hall : (used ++ [x]).Nodup := by
    rw [List.nodup_append]
    refine ⟨hnd, List.nodup_singleton x, ?_⟩
    intro a ha hb
    rw [List.mem_singleton] at hb
    exact hx (hb ▸ ha)
  have hpush : pushBounded used x cap =
      if (used ++ [x]).length > cap then (used ++ [x]).drop 1 else used ++ [x] := rfl
  by_cases hfull : (used ++ [x]).length > cap
  · rw [hpush, if_pos hfull] at ih
    cases used with
    | nil =>
      simp only [List.nil_append, List.length_cons, List.length_nil] at hfull
      omega
    | cons u rest =>
      have hrest : rest.length + 1 = cap := by
        simp only [List.length_append, List.length_cons, List.length_nil] at hfull hlen
        omega
      intro k
      cases k with
      | zero =>
        have h7 : ((u :: rest ++ x :: outs).drop 0).take (cap + 1) = u :: rest ++ [x] := by
          have : u :: rest ++ x :: outs = (u :: rest ++ [x]) ++ outs := by simp
          rw [List.drop_zero, this]
          exact List.take_left' (by simp [hrest])
        rw [h7]
        exact hall
      | succ k =>
        have := ih k
        simpa using this
  · rw [hpush, if_neg hfull] at ih
    intro k
    have := ih k
    simpa using this

theorem getTips_windows (calls : List (Nat × Rng)) (s : GameState)
    (hcalls : ∀ c ∈ calls, c.1 ∈ getAllTeenNumbers) (hnd : s.usedTips.Nodup)
    (hlen : s.usedTips.length ≤ 4) :
    ∃ tips s', getTips calls s = some (tips, s') ∧ tips.length = calls.length ∧
      ∀ k, (((s.usedTips ++ tips.filter fun t => GENERAL_TIPS.contains t).drop k).take 5).Nodup := by
  induction calls generalizing s with
  | nil =>
    refine ⟨[], s, rfl, rfl, ?_⟩
    intro k
    rw [List.filter_nil, List.append_nil]
    exact hnd.sublist ((List.take_sublist _ _).trans (List.drop_sublist _ _))
  | cons c rest ih =>
    obtain ⟨num, g⟩ := c
    have hnum : num ∈ getAllTeenNumbers := hcalls (num, g) (List.mem_cons_self _ _)
    have hrest : ∀ c ∈ rest, c.1 ∈ getAllTeenNumbers :=
      fun c hc => hcalls c (List.mem_cons_of_mem _ hc)
    obtain ⟨tip, s1, g1, heq, hcase⟩ := getTip_cases s num g hnum
    rcases hcase with ⟨_, hnot, hs1⟩ | ⟨hgen, hfresh, hs1⟩
    · subst hs1
      obtain ⟨tips, s', hrun, hl, hw⟩ := ih s1 hrest hnd hlen
      refine ⟨tip :: tips, s', ?_, by simp [hl], ?_⟩
      · simp only [getTips, heq, hrun]
      · have hf : GENERAL_TIPS.contains tip = false := by simpa using hnot
        rw [List.filter_cons_of_neg (by rw [hf]; decide)]
        exact hw
    · obtain ⟨tips, s', hrun, hl, hw⟩ := ih s1 hrest
        (by rw [hs1]; exact pushBounded_nodup_of_not_mem _ _ _ hnd hfresh)
        (by rw [hs1]; exact pushBounded_length_le _ _ _ hlen)
      refine ⟨tip :: tips, s', ?_, by simp [hl], ?_⟩
      · simp only [getTips, heq, hrun]
      · have hf : GENERAL_TIPS.contains tip = true := by simpa using hgen
        rw [List.filter_cons_of_pos hf]
        rw [hs1] at hw
        exact windows_push s.usedTips tip _ 4 (by decide) hnd hlen hfresh hw

/-- C14: for a teen number `num` and a state with `usedTips.length ≤ 4`, `getTip` returns
either `TEEN_NUMBERS[num].tip`, leaving the state unchanged, or a member of `GENERAL_TIPS`
that was not in `usedTips`; in the second case the tip is pushed onto `usedTips`, the oldest
entry is dropped when the length exceeds 4, and nothing else changes.  Either way
`usedTips.length ≤ 4` still holds.  Over any sequence of calls starting from the empty
`usedTips` that `startGame` leaves, every general tip returned differs from the 4 general
tips returned before it. -/
theorem getTip_spec (s : GameState) (num : Nat) (g : Rng) (hnum : 11 ≤ num ∧ num ≤ 19)
    (hlen : s.usedTips.length ≤ 4) :
    (∃ tip s' g', getTip s (some num) g = some (tip, s', g') ∧
      (((teenEntry num).map (fun e => e.tip) = some tip ∧ s' = s) ∨
       (tip ∈ GENERAL_TIPS ∧ tip ∉ s.usedTips ∧
         s'.usedTips =
           (if (s.usedTips ++ [tip]).length > 4 then (s.usedTips ++ [tip]).drop 1
            else s.usedTips ++ [tip]) ∧
         s' = { s with usedTips := s'.usedTips })) ∧
      s'.usedTips.length ≤ 4) ∧
    ∀ (calls : List (Nat × Rng)) (t : GameState),
      (∀ c ∈ calls, 11 ≤ c.1 ∧ c.1 ≤ 19) → t.usedTips = [] →
      ∃ tips t', getTips calls t = some (tips, t') ∧ tips.length = calls.length ∧
        ∀ k, (((tips.filter fun x => GENERAL_TIPS.contains x).drop k).take 5).Nodup := by
  constructor
  · obtain ⟨tip, s', g', heq, hcase⟩ :=
      getTip_cases s num g ((mem_getAllTeenNumbers num).mpr hnum)
    refine ⟨tip, s', g', heq, ?_, ?_⟩
    · rcases hcase with ⟨h1, _, h3⟩ | ⟨h1, h2, h3⟩
      · exact Or.inl ⟨h1, h3⟩
      · refine Or.inr ⟨h1, h2, ?_, ?_⟩
        · rw [h3]
          rfl
        · rw [h3]
    · rcases hcase with ⟨_, _, h3⟩ | ⟨_, _, h3⟩
      · rw [h3]
        exact hlen
      · rw [h3]
        exact pushBounded_length_le _ _ _ hlen
  · intro calls t hcalls ht
    obtain ⟨tips, t', hrun, hl, hw⟩ := getTips_windows calls t
      (fun c hc => (mem_getAllTeenNumbers c.1).mpr (hcalls c hc))
      (by rw [ht]; exact List.nodup_nil) (by rw [ht]; decide)
    refine ⟨tips, t', hrun, hl, ?_⟩
    intro k
    have := hw k
    rwa [ht, List.nil_append] at this

/-- Witness of C14: the sample state and number 11, with a draw below 0.7 (the number's own
tip) and the resulting bound on `usedTips`. -/
theorem getTip_spec_witness :
    (11 ≤ 11 ∧ 11 ≤ 19) ∧ sampleState.usedTips.length ≤ 4 ∧
    ∃ tip s' g', getTip sampleState (some 11) zeroRng = some (tip, s', g') ∧
      (((teenEntry 11).map (fun e => e.tip) = some tip ∧ s' = sampleState) ∨
       (tip ∈ GENERAL_TIPS ∧ tip ∉ sampleState.usedTips ∧
         s'.usedTips =
           (if (sampleState.usedTips ++ [tip]).length > 4
            then (sampleState.usedTips ++ [tip]).drop 1
            else sampleState.usedTips ++ [tip]) ∧
         s' = { sampleState with usedTips := s'.usedTips })) ∧
      s'.usedTips.length ≤ 4 :=
  ⟨by decide, by decide, (getTip_spec sampleState 11 zeroRng (by decide) (by decide)).1⟩

end TeenGame
